import Mathlib

set_option maxHeartbeats 1000000

namespace Light

/-!
Shallow embedding of the TestDevice virtual LED device
(`script/TestDevice/app`): configuration validation (`core/config.py`),
the device runtime (`core/runtime.py`) and the UDP protocol server
(`services/virtual_device.py`).

Conventions: Python `int` is modelled as `Int`, byte values as `Nat`
(always `< 256` where they come from a datagram), byte strings as
`List Nat`, Python sets as `Finset`, fallible code as `Except String`
or `Option`.
-/

/-- Python `str.strip()` on a character list: remove whitespace from both
    ends. -/
def stripChars (l : List Char) : List Char :=
  ((l.dropWhile Char.isWhitespace).reverse.dropWhile Char.isWhitespace).reverse

/-- Python `str.strip()`. -/
def pyStrip (s : String) : String := String.mk (stripChars s.data)

/-- Python `str.lower()`, modelled as a per-character map (the inputs the
    code compares against are ASCII). -/
def pyLower (s : String) : String := String.mk (s.data.map Char.toLower)

/-! ## core/config.py — data model -/

def SCHEMA_VERSION : Int := 1
def DEFAULT_DEVICE_NAME : String := "TestMatrix"
def DEFAULT_UDP_PORT : Int := 9999
def DEFAULT_PIXEL_SIZE : Int := 6

/-- `MatrixMapConfig` (config.py): width, height and the virtual-cell to
    LED-index mapping (`null` = unmapped cell).  Entries are Python ints and
    may be arbitrary (validation happens in `leds_count_from_matrix_map`). -/
structure MatrixMapConfig where
  width : Int
  height : Int
  map : List (Option Int)
  deriving DecidableEq, Repr

/-- `OutputConfig` (config.py). -/
structure OutputConfig where
  id : String
  name : String
  output_type : String
  leds_count : Int
  matrix : Option MatrixMapConfig
  deriving DecidableEq, Repr

/-- `DeviceConfig` (config.py). -/
structure DeviceConfig where
  schema_version : Int
  device_name : String
  udp_port : Int
  pixel_size : Int
  outputs : List OutputConfig
  deriving DecidableEq, Repr

/-! ## core/config.py — validation -/

/-- First pass of `leds_count_from_matrix_map`: walk the map, reject
    negative indices, and track the running maximum of the non-null entries
    (`max_idx`, `None` while no non-null entry has been seen). -/
def maxIdxPass (outputId : String) :
    List (Option Int) → Option Int → Except String (Option Int)
  | [], acc => .ok acc
  | none :: rest, acc => maxIdxPass outputId rest acc
  | some v :: rest, acc =>
      if v < 0 then
        .error ("Output '" ++ outputId ++
          "' matrix indices must be non-negative integers or null")
      else
        maxIdxPass outputId rest
          (some (match acc with | none => v | some m => max m v))

/-- Second pass of `leds_count_from_matrix_map`: mark each non-null index in
    the `seen` array, rejecting out-of-range and duplicate indices.
    (`seen[opt]` is indexed with `Int.toNat`; a negative entry cannot reach
    this pass because the first pass already rejected it.) -/
def seenPass (outputId : String) (ledsCount : Int) :
    List (Option Int) → List Bool → Except String (List Bool)
  | [], seen => .ok seen
  | none :: rest, seen => seenPass outputId ledsCount rest seen
  | some v :: rest, seen =>
      if ledsCount ≤ v then
        .error ("Output '" ++ outputId ++ "' matrix index out of range")
      else if seen.getD v.toNat false then
        .error ("Output '" ++ outputId ++ "' matrix has duplicate index")
      else
        seenPass outputId ledsCount rest (seen.set v.toNat true)

/-- `leds_count_from_matrix_map` (config.py): derive the LED count of a
    matrix output (`1 + max` of the non-null entries) and validate that the
    non-null map entries cover `0..ledsCount-1` without duplicates or
    gaps. -/
def leds_count_from_matrix_map (outputId : String) (m : MatrixMapConfig) :
    Except String Int :=
  if m.width ≤ 0 ∨ m.height ≤ 0 then
    .error ("Output '" ++ outputId ++ "' has invalid matrix size")
  else if (m.map.length : Int) ≠ m.width * m.height then
    .error ("Output '" ++ outputId ++ "' matrix map length mismatch")
  else
    match maxIdxPass outputId m.map none with
    | .error e => .error e
    | .ok none => .error ("Output '" ++ outputId ++ "' matrix has no LEDs")
    | .ok (some maxIdx) =>
        let ledsCount := maxIdx + 1
        match seenPass outputId ledsCount m.map
            (List.replicate ledsCount.toNat false) with
        | .error e => .error e
        | .ok seen =>
            if seen.any (fun b => !b) then
              .error ("Output '" ++ outputId ++
                "' matrix indices must cover the range without gaps")
            else .ok ledsCount

/-- `normalize_output_type` (config.py).  The `isinstance(value, str)` check
    is discharged by the type. -/
def normalize_output_type (value : String) : Except String String :=
  let v := pyStrip value
  if v = "" then .error "output_type cannot be empty"
  else
    let lowered := pyLower v
    if lowered = "single" then .ok "Single"
    else if lowered = "linear" ∨ lowered = "strip" ∨ lowered = "ledstrip" then
      .ok "Linear"
    else if lowered = "matrix" ∨ lowered = "grid" then .ok "Matrix"
    else if v = "Single" ∨ v = "Linear" ∨ v = "Matrix" then .ok v
    else .error ("Unsupported output_type: " ++ value)

/-- Raw (pre-validation) matrix block.  The Python `int(...)` coercions of
    `parse_matrix_map` are assumed already applied; a missing `width` or
    `height` key coerces to `0`. -/
structure RawMatrix where
  width : Int
  height : Int
  map : List (Option Int)
  deriving DecidableEq, Repr

/-- One raw entry of `outputs`.  The Python `str(...)` / `int(...)` coercions
    are assumed already applied; absent keys are `none` (an absent `id` or
    `name` coerces to `""`). -/
structure RawOutput where
  id : String
  name : String
  output_type : Option String
  leds_count : Option Int
  length : Option Int
  matrix : Option RawMatrix
  deriving DecidableEq, Repr

/-- Raw (pre-validation) device configuration. -/
structure RawConfig where
  schema_version : Option Int
  device_name : Option String
  udp_port : Option Int
  pixel_size : Option Int
  outputs : List RawOutput
  deriving DecidableEq, Repr

/-- `parse_matrix_map` (config.py): a missing `matrix` block is an error;
    the constructed `MatrixMapConfig` is validated by
    `leds_count_from_matrix_map` before being returned. -/
def parse_matrix_map (outputId : String) (raw : Option RawMatrix) :
    Except String MatrixMapConfig :=
  match raw with
  | none => .error ("Output '" ++ outputId ++ "' matrix must be an object")
  | some r =>
      let m : MatrixMapConfig := ⟨r.width, r.height, r.map⟩
      match leds_count_from_matrix_map outputId m with
      | .error e => .error e
      | .ok _ => .ok m

/-- `parse_output` (config.py).  The Linear branch is written as a case
    split on which of `length` / `leds_count` are present; it computes the
    same `length` value and performs the same checks as the Python code. -/
def parse_output (raw : RawOutput) : Except String OutputConfig :=
  let output_id := pyStrip raw.id
  if output_id = "" then .error "Output id cannot be empty"
  else
    let name := if pyStrip raw.name = "" then output_id else pyStrip raw.name
    match (match raw.output_type with
           | none => Except.error "output_type must be a string"
           | some s => normalize_output_type s) with
    | .error e => .error e
    | .ok output_type =>
      if output_type = "Single" then
        let leds_count := raw.leds_count.getD 1
        if leds_count ≠ 1 then
          .error ("Output '" ++ output_id ++ "' is Single but leds_count != 1")
        else .ok ⟨output_id, name, output_type, 1, none⟩
      else if output_type = "Linear" then
        match raw.length, raw.leds_count with
        | none, none =>
            .error ("Output '" ++ output_id ++ "' is Linear but missing length")
        | some l, none =>
            if l ≤ 0 then
              .error ("Output '" ++ output_id ++ "' has invalid length")
            else .ok ⟨output_id, name, output_type, l, none⟩
        | none, some c =>
            if c ≤ 0 then
              .error ("Output '" ++ output_id ++ "' has invalid length")
            else .ok ⟨output_id, name, output_type, c, none⟩
        | some l, some c =>
            if l ≤ 0 then
              .error ("Output '" ++ output_id ++ "' has invalid length")
            else if l ≠ c then
              .error ("Output '" ++ output_id ++
                "' has conflicting length and leds_count")
            else .ok ⟨output_id, name, output_type, l, none⟩
      else
        match parse_matrix_map output_id raw.matrix with
        | .error e => .error e
        | .ok matrix =>
          match leds_count_from_matrix_map output_id matrix with
          | .error e => .error e
          | .ok derived =>
            match raw.leds_count with
            | some hinted =>
                if hinted ≠ derived then
                  .error ("Output '" ++ output_id ++ "' leds_count mismatch")
                else .ok ⟨output_id, name, output_type, derived, some matrix⟩
            | none => .ok ⟨output_id, name, output_type, derived, some matrix⟩

/-- The output-parsing loop of `device_config_from_dict`: parse each raw
    output in order, rejecting duplicate ids (the Python `ids` set is the
    `ids` list here). -/
def parseOutputsLoop : List RawOutput → List String → Except String (List OutputConfig)
  | [], _ => .ok []
  | o :: rest, ids =>
      match parse_output o with
      | .error e => .error e
      | .ok out =>
          if out.id ∈ ids then .error ("Duplicate output id: " ++ out.id)
          else
            match parseOutputsLoop rest (out.id :: ids) with
            | .error e => .error e
            | .ok outs => .ok (out :: outs)

/-- `device_config_from_dict` (config.py). -/
def device_config_from_dict (raw : RawConfig) : Except String DeviceConfig :=
  let schema_version := raw.schema_version.getD SCHEMA_VERSION
  let dn := pyStrip (raw.device_name.getD DEFAULT_DEVICE_NAME)
  let device_name := if dn = "" then DEFAULT_DEVICE_NAME else dn
  let udp_port := raw.udp_port.getD DEFAULT_UDP_PORT
  let pixel_size := raw.pixel_size.getD DEFAULT_PIXEL_SIZE
  if raw.outputs = [] then .error "Config.outputs must be a non-empty list"
  else
    match parseOutputsLoop raw.outputs [] with
    | .error e => .error e
    | .ok outputs => .ok ⟨schema_version, device_name, udp_port, pixel_size, outputs⟩

/-- The per-output part of `device_config_to_dict` (config.py): rebuild the
    raw dict for one output (`length` for Linear, the `matrix` block for
    Matrix); any other `output_type` raises. -/
def output_to_raw (out : OutputConfig) : Except String RawOutput :=
  if out.output_type = "Single" then
    .ok ⟨out.id, out.name, some out.output_type, some out.leds_count, none, none⟩
  else if out.output_type = "Linear" then
    .ok ⟨out.id, out.name, some out.output_type, some out.leds_count,
         some out.leds_count, none⟩
  else if out.output_type = "Matrix" then
    match out.matrix with
    | some m =>
        .ok ⟨out.id, out.name, some out.output_type, some out.leds_count, none,
             some ⟨m.width, m.height, m.map⟩⟩
    | none => .error ("Unsupported output_type: " ++ out.output_type)
  else .error ("Unsupported output_type: " ++ out.output_type)

/-- The output loop of `device_config_to_dict`. -/
def encodeOutputs : List OutputConfig → Except String (List RawOutput)
  | [] => .ok []
  | o :: rest =>
      match output_to_raw o with
      | .error e => .error e
      | .ok r =>
          match encodeOutputs rest with
          | .error e => .error e
          | .ok rs => .ok (r :: rs)

/-- `device_config_to_dict` (config.py). -/
def device_config_to_dict (config : DeviceConfig) : Except String RawConfig :=
  match encodeOutputs config.outputs with
  | .error e => .error e
  | .ok outs =>
      .ok ⟨some config.schema_version, some config.device_name,
           some config.udp_port, some config.pixel_size, outs⟩

/-! ## core/protocol.py -/

def CMD_QUERY_INFO : Nat := 0x10
def CMD_FRAGMENT_PIXELS : Nat := 0x12
def CMD_QUERY_CONFIG : Nat := 0x14
def PROTOCOL_VERSION : Nat := 4
def MAX_UDP_PAYLOAD : Nat := 1400

/-! ## core/runtime.py -/

def LINEAR_DISPLAY_HEIGHT : Int := 1
def OUTPUT_GAP : Int := 2

/-- `OutputRuntime` (runtime.py).  `render_buffer` is a fresh all-zero byte
    buffer of `virtual_width * virtual_height * 3` bytes. -/
structure OutputRuntime where
  id : String
  name : String
  output_type : String
  leds_count : Int
  offset : Int
  virtual_width : Int
  virtual_height : Int
  virtual_to_global : List (Option Int)
  render_buffer : List Nat
  top : Int
  left : Int
  deriving DecidableEq, Repr

/-- `DeviceRuntime._build_output_runtime` (runtime.py).  The Python
    `assert out.matrix is not None` becomes an error value.  `bytearray(n)`
    is modelled as `List.replicate n.toNat 0` (for a validated config the
    size is non-negative). -/
def build_output_runtime (out : OutputConfig) (offset top : Int) :
    Except String OutputRuntime :=
  if out.output_type = "Matrix" then
    match out.matrix with
    | none => .error "assert out.matrix is not None"
    | some m =>
        .ok { id := out.id, name := out.name, output_type := out.output_type,
              leds_count := out.leds_count, offset := offset,
              virtual_width := m.width, virtual_height := m.height,
              virtual_to_global :=
                m.map.map (fun opt => opt.map (fun v => offset + v)),
              render_buffer := List.replicate (m.width * m.height * 3).toNat 0,
              top := top, left := 0 }
  else if out.output_type = "Linear" then
    .ok { id := out.id, name := out.name, output_type := out.output_type,
          leds_count := out.leds_count, offset := offset,
          virtual_width := out.leds_count,
          virtual_height := LINEAR_DISPLAY_HEIGHT,
          virtual_to_global :=
            (List.range out.leds_count.toNat).map
              (fun i => some (offset + (i : Int))),
          render_buffer :=
            List.replicate (out.leds_count * LINEAR_DISPLAY_HEIGHT * 3).toNat 0,
          top := top, left := 0 }
  else
    .ok { id := out.id, name := out.name, output_type := out.output_type,
          leds_count := 1, offset := offset,
          virtual_width := 1, virtual_height := 1,
          virtual_to_global := [some offset],
          render_buffer := List.replicate 3 0,
          top := top, left := 0 }

/-- The loop of `DeviceRuntime._build_outputs_runtime`: accumulates the
    output list, the running `offset`, the running `top` and the running
    maximum width `max_w`. -/
def buildOutputsLoop :
    List OutputConfig → Int → Int → Int →
    Except String (List OutputRuntime × Int × Int × Int)
  | [], offset, top, maxW => .ok ([], offset, top, maxW)
  | out :: rest, offset, top, maxW =>
      match build_output_runtime out offset top with
      | .error e => .error e
      | .ok rt =>
          match buildOutputsLoop rest (offset + out.leds_count)
              (top + rt.virtual_height + OUTPUT_GAP) (max maxW rt.virtual_width) with
          | .error e => .error e
          | .ok (outs, o, t, w) => .ok (rt :: outs, o, t, w)

/-- `DeviceRuntime._build_outputs_runtime` (runtime.py): returns
    `(outputs, canvas_width, canvas_height, total_leds)`.  Python's floor
    division `//` is `Int.fdiv`. -/
def build_outputs_runtime (config : DeviceConfig) :
    Except String (List OutputRuntime × Int × Int × Int) :=
  match buildOutputsLoop config.outputs 0 0 1 with
  | .error e => .error e
  | .ok (outs, offset, top, maxW) =>
      if outs = [] then .error "Device must have at least one output"
      else
        let canvasW := maxW
        let canvasH := max 1 (top - OUTPUT_GAP)
        let outs := outs.map
          (fun o => { o with left := max 0 ((canvasW - o.virtual_width).fdiv 2) })
        .ok (outs, canvasW, canvasH, offset)

/-- The immutable part of `DeviceRuntime` (runtime.py), fixed at
    construction. -/
structure DeviceRuntime where
  name : String
  description : String
  serial : String
  udp_port : Int
  pixel_size : Int
  outputs : List OutputRuntime
  total_leds : Int
  canvas_width : Int
  canvas_height : Int
  buffer_size : Int
  deriving Repr

/-- `DeviceRuntime.__init__` (runtime.py).  The randomly generated serial
    (`secrets.token_hex(8).upper()`) is a parameter. -/
def mkDeviceRuntime (config : DeviceConfig) (serial : String) :
    Except String DeviceRuntime :=
  match build_outputs_runtime config with
  | .error e => .error e
  | .ok (outs, cw, ch, total) =>
      .ok { name := "TestDevice V" ++ toString PROTOCOL_VERSION,
            description := "TestDevice by Python mDNS",
            serial := serial,
            udp_port := config.udp_port, pixel_size := config.pixel_size,
            outputs := outs, total_leds := total,
            canvas_width := cw, canvas_height := ch,
            buffer_size := total * 3 }

/-- The mutable part of `DeviceRuntime`: the double color buffers, the dirty
    flag and the frame-reassembly fields (all guarded by `buffer_lock` in
    Python).  `swapCount` is a history variable counting buffer swaps; it is
    not present in the source and is incremented exactly where the source
    swaps `front_buffer` and `back_buffer`. -/
structure FrameState where
  front : List Nat
  back : List Nat
  dirty : Bool
  current_frame_id : Option Nat
  frame_fragments_received : Finset Nat
  frame_total_fragments : Nat
  swapCount : Nat

/-- Initial mutable state set by `DeviceRuntime.__init__`. -/
def initFrameState (bufferSize : Int) : FrameState :=
  { front := List.replicate bufferSize.toNat 0,
    back := List.replicate bufferSize.toNat 0,
    dirty := true,
    current_frame_id := none,
    frame_fragments_received := ∅,
    frame_total_fragments := 0,
    swapCount := 0 }

/-- One pixel update `(globalIndex, r, g, b)`. -/
abbrev PixelUpdate := Nat × Nat × Nat × Nat

/-- The body of the update loop in `apply_fragment_updates`: write the three
    color bytes at offset `index * 3` of the back buffer when
    `0 <= idx < buf_size - 2` (the Python comparison is over `int`). -/
def applyPixelUpdate (bufSize : Int) (buf : List Nat) (u : PixelUpdate) :
    List Nat :=
  let idx : Int := (u.1 : Int) * 3
  if 0 ≤ idx ∧ idx < bufSize - 2 then
    ((buf.set idx.toNat u.2.1).set (idx.toNat + 1) u.2.2.1).set
      (idx.toNat + 2) u.2.2.2
  else buf

/-- The update loop of `apply_fragment_updates`. -/
def applyPixelUpdates (bufSize : Int) (buf : List Nat)
    (updates : List PixelUpdate) : List Nat :=
  updates.foldl (applyPixelUpdate bufSize) buf

/-- `DeviceRuntime.apply_fragment_updates` (runtime.py). -/
def applyFragmentUpdates (bufSize : Int)
    (frame_id total_fragments fragment_index : Nat)
    (updates : List PixelUpdate) (s : FrameState) : FrameState :=
  let s1 :=
    if s.current_frame_id ≠ some frame_id then
      { s with current_frame_id := some frame_id,
               frame_fragments_received := ∅,
               frame_total_fragments := total_fragments }
    else s
  let back := applyPixelUpdates bufSize s1.back updates
  let received := insert fragment_index s1.frame_fragments_received
  if s1.frame_total_fragments ≤ received.card then
    { s1 with front := back, back := s1.front, dirty := true,
              frame_fragments_received := ∅,
              swapCount := s1.swapCount + 1 }
  else
    { s1 with back := back, frame_fragments_received := received }

/-- `DeviceRuntime.apply_frame_end` (runtime.py). -/
def applyFrameEnd (frame_id : Nat) (s : FrameState) : FrameState :=
  if s.current_frame_id = some frame_id then
    { s with front := s.back, back := s.front, dirty := true,
             frame_fragments_received := ∅,
             swapCount := s.swapCount + 1 }
  else s

/-- `DeviceRuntime.primary_dimensions` (runtime.py): first Matrix output's
    dimensions, else first Linear output's `(min(width, 65535), 1)`, else
    `(1, 1)`. -/
def primary_dimensions (outputs : List OutputRuntime) : Int × Int :=
  match outputs.find? (fun o => o.output_type == "Matrix") with
  | some o => (o.virtual_width, o.virtual_height)
  | none =>
      match outputs.find? (fun o => o.output_type == "Linear") with
      | some o => (min o.virtual_width 65535, 1)
      | none => (1, 1)

/-! ## services/virtual_device.py -/

/-- The record loop of `VirtualDeviceServer._parse_updates`: read up to
    `count` 5-byte records `[indexLo, indexHi, r, g, b]`, stopping early when
    fewer than 5 bytes remain. -/
def parseUpdatesLoop : Nat → List Nat → List PixelUpdate
  | 0, _ => []
  | n + 1, i0 :: i1 :: r :: g :: b :: rest =>
      (i0 ||| (i1 <<< 8), r, g, b) :: parseUpdatesLoop n rest
  | _ + 1, _ => []

/-- `VirtualDeviceServer._parse_updates` (virtual_device.py): when the
    declared count would overrun the payload, the count is recomputed as
    `(len(payload) - offset) // 5`. -/
def parse_updates (payload : List Nat) (countHint : Option Nat) :
    List PixelUpdate :=
  match countHint with
  | none =>
      match payload with
      | c0 :: c1 :: rest =>
          let declared := c0 ||| (c1 <<< 8)
          let count :=
            if rest.length < declared * 5 then rest.length / 5 else declared
          parseUpdatesLoop count rest
      | _ => []
  | some hint =>
      let count :=
        if payload.length < hint * 5 then payload.length / 5 else hint
      parseUpdatesLoop count payload

/-- `VirtualDeviceServer._process_command` (virtual_device.py) restricted to
    its effect on the runtime frame state: QUERY_INFO and QUERY_CONFIG only
    send replies, and a FRAGMENT_PIXELS datagram reaches
    `apply_fragment_updates` only when its parsed update list is
    non-empty. -/
def process_command (bufSize : Int) (data : List Nat) (s : FrameState) :
    FrameState :=
  match data with
  | [] => s
  | cmd :: payload =>
      if cmd = CMD_FRAGMENT_PIXELS then
        match payload with
        | frameId :: totalFragments :: fragmentIndex :: c0 :: c1 :: rest =>
            let count := c0 ||| (c1 <<< 8)
            let updates := parse_updates rest (some count)
            if updates = [] then s
            else applyFragmentUpdates bufSize frameId totalFragments
              fragmentIndex updates s
        | _ => s
      else s

/-- UTF-8 encoding of one character (Python `str.encode("utf-8")`). -/
def utf8Char (c : Char) : List Nat :=
  let n := c.toNat
  if n < 0x80 then [n]
  else if n < 0x800 then
    [0xC0 ||| (n >>> 6), 0x80 ||| (n &&& 0x3F)]
  else if n < 0x10000 then
    [0xE0 ||| (n >>> 12), 0x80 ||| ((n >>> 6) &&& 0x3F), 0x80 ||| (n &&& 0x3F)]
  else
    [0xF0 ||| (n >>> 18), 0x80 ||| ((n >>> 12) &&& 0x3F),
     0x80 ||| ((n >>> 6) &&& 0x3F), 0x80 ||| (n &&& 0x3F)]

/-- Python `str.encode("utf-8")` as a byte list. -/
def utf8Encode (s : String) : List Nat := (s.data.map utf8Char).flatten

/-- Python `str.encode("ascii")`: fails on any non-ASCII character. -/
def asciiEncode (s : String) : Option (List Nat) :=
  if s.data.all (fun c => c.toNat < 128) then some (s.data.map Char.toNat)
  else none

/-- `struct.pack("<H", v)`: little-endian unsigned 16-bit; `struct.error`
    (hence `none`) when out of range. -/
def packH (v : Int) : Option (List Nat) :=
  if 0 ≤ v ∧ v < 65536 then some [v.toNat % 256, v.toNat / 256] else none

/-- `VirtualDeviceServer._send_device_info` (virtual_device.py): the
    QUERY_INFO reply datagram, or `none` when the Python code raises inside
    its try/except and sends nothing. -/
def send_device_info (rt : DeviceRuntime) : Option (List Nat) :=
  let dims := primary_dimensions rt.outputs
  let nameBytes := utf8Encode rt.name
  let descBytes := utf8Encode rt.description
  match asciiEncode rt.serial, packH dims.1, packH dims.2,
      packH rt.pixel_size with
  | some snBytes, some wB, some hB, some pB =>
      let nameLen := min nameBytes.length 255
      let descLen := min descBytes.length 255
      let snLen := min snBytes.length 255
      some ([CMD_QUERY_INFO, PROTOCOL_VERSION] ++ wB ++ hB ++ pB
        ++ [nameLen] ++ nameBytes.take nameLen
        ++ [descLen] ++ descBytes.take descLen
        ++ [snLen] ++ snBytes.take snLen)
  | _, _, _, _ => none

/-- `VirtualDeviceServer._send_device_config` (virtual_device.py): the list
    of QUERY_CONFIG reply fragments, or `none` when the payload would need
    more than 255 fragments (the server logs and sends nothing).  `msgId` is
    the server's `_config_msg_id` counter; the code masks it with `& 0xFF`.
    A chunk length is at most `max_chunk = 1394 < 65536`, so
    `to_bytes(2, "little")` is the two base-256 digits. -/
def send_device_config (msgId : Nat) (payload : List Nat) :
    Option (List (List Nat)) :=
  let headerLen := 6
  let maxChunk := max 1 (MAX_UDP_PAYLOAD - headerLen)
  let totalFragments := (payload.length + maxChunk - 1) / maxChunk
  if 255 < totalFragments then none
  else
    let msg := msgId % 256
    some ((List.range totalFragments).map (fun k =>
      let chunk := (payload.drop (k * maxChunk)).take maxChunk
      [CMD_QUERY_CONFIG, msg, totalFragments, k]
        ++ [chunk.length % 256, chunk.length / 256 % 256] ++ chunk))

/-- Delivery of a sequence of fragments `(fragmentIndex, updates)` that all
    declare the same frame id `F` and fragment count `N`, in order, through
    `apply_fragment_updates`. -/
def deliverFragments (bufSize : Int) (F N : Nat)
    (frags : List (Nat × List PixelUpdate)) (s : FrameState) : FrameState :=
  frags.foldl (fun st fr => applyFragmentUpdates bufSize F N fr.1 fr.2 st) s

/-- Example configuration from the spec: a Single output `a` followed by a
    Linear output `b` of length 3. -/
def cfgEx : DeviceConfig :=
  ⟨1, "d", 9999, 6,
   [⟨"a", "a", "Single", 1, none⟩, ⟨"b", "b", "Linear", 3, none⟩]⟩

/-- Runtime outputs that `_build_outputs_runtime` produces from `cfgEx`. -/
def outsEx : List OutputRuntime :=
  [⟨"a", "a", "Single", 1, 0, 1, 1, [some 0], [0, 0, 0], 0, 1⟩,
   ⟨"b", "b", "Linear", 3, 1, 3, 1, [some 1, some 2, some 3],
    [0, 0, 0, 0, 0, 0, 0, 0, 0], 3, 0⟩]

/-- Device runtime built from `cfgEx` with serial `"AB12"`. -/
def rtEx : DeviceRuntime :=
  ⟨"TestDevice V4", "TestDevice by Python mDNS", "AB12", 9999, 6,
   outsEx, 4, 3, 4, 12⟩

/-- Invariants `parse_output` establishes on every output it accepts; they
    are what makes the encode/parse round trip of `device_config_to_dict`
    and `device_config_from_dict` close. -/
def WFOutput (out : OutputConfig) : Prop :=
  pyStrip out.id = out.id ∧ out.id ≠ "" ∧
  pyStrip out.name = out.name ∧ out.name ≠ "" ∧
  ((out.output_type = "Single" ∧ out.leds_count = 1 ∧ out.matrix = none) ∨
   (out.output_type = "Linear" ∧ 0 < out.leds_count ∧ out.matrix = none) ∨
   (out.output_type = "Matrix" ∧ ∃ mm, out.matrix = some mm ∧
     leds_count_from_matrix_map out.id mm = .ok out.leds_count))

/-- Decidable equality for `Except` results, used to evaluate the embedded
    functions on concrete inputs. -/
instance {e a : Type} [DecidableEq e] [DecidableEq a] :
    DecidableEq (Except e a) := fun x y =>
  match x, y with
  | .error x1, .error y1 =>
      if h : x1 = y1 then isTrue (congrArg Except.error h)
      else isFalse (fun hc => h (Except.error.inj hc))
  | .ok x1, .ok y1 =>
      if h : x1 = y1 then isTrue (congrArg Except.ok h)
      else isFalse (fun hc => h (Except.ok.inj hc))
  | .error _, .ok _ => isFalse (fun hc => Except.noConfusion hc)
  | .ok _, .error _ => isFalse (fun hc => Except.noConfusion hc)

/-- Raw configuration used by the C3 witness. -/
def rawEx3 : RawConfig :=
  ⟨none, some "  Dev ", some 9, none,
   [⟨"a", "", some "single", none, none, none⟩,
    ⟨"b", "", some "Linear", none, some 3, none⟩]⟩

/-- Parsed form of `rawEx3`. -/
def cEx3 : DeviceConfig :=
  ⟨1, "Dev", 9, 6,
   [⟨"a", "a", "Single", 1, none⟩, ⟨"b", "b", "Linear", 3, none⟩]⟩

/-- Re-encoded form of `cEx3`. -/
def encEx3 : RawConfig :=
  ⟨some 1, some "Dev", some 9, some 6,
   [⟨"a", "a", some "Single", some 1, none, none⟩,
    ⟨"b", "b", some "Linear", some 3, some 3, none⟩]⟩

/-! ## Theorems -/

/-- C8: `apply_frame_end F` on a state whose current frame id is `F` swaps
    the two buffers, sets the dirty flag and clears the received-fragment
    set (leaving the frame id and declared total untouched); on a state
    whose current frame id differs from `F` it changes nothing. -/
theorem frame_end_spec (F : Nat) (s : FrameState) :
    (s.current_frame_id = some F →
      (applyFrameEnd F s).front = s.back ∧
      (applyFrameEnd F s).back = s.front ∧
      (applyFrameEnd F s).dirty = true ∧
      (applyFrameEnd F s).frame_fragments_received = ∅ ∧
      (applyFrameEnd F s).current_frame_id = s.current_frame_id ∧
      (applyFrameEnd F s).frame_total_fragments = s.frame_total_fragments ∧
      (applyFrameEnd F s).swapCount = s.swapCount + 1) ∧
    (s.current_frame_id ≠ some F → applyFrameEnd F s = s) := by
  constructor <;> intro h <;> simp [applyFrameEnd, h]

/-- Witness for C8: concrete matching and non-matching frame-end calls. -/
theorem frame_end_spec_witness :
    ((applyFrameEnd 3 ⟨[1], [2], false, some 3, ∅, 2, 0⟩).front = [2] ∧
     (applyFrameEnd 3 ⟨[1], [2], false, some 3, ∅, 2, 0⟩).swapCount = 1) ∧
    applyFrameEnd 4 ⟨[1], [2], false, some 3, ∅, 2, 0⟩ =
      ⟨[1], [2], false, some 3, ∅, 2, 0⟩ := by
  refine ⟨⟨?_, ?_⟩, ?_⟩
  · exact ((frame_end_spec 3 ⟨[1], [2], false, some 3, ∅, 2, 0⟩).1 rfl).1
  · exact ((frame_end_spec 3 ⟨[1], [2], false, some 3, ∅, 2, 0⟩).1 rfl).2.2.2.2.2.2
  · exact (frame_end_spec 4 ⟨[1], [2], false, some 3, ∅, 2, 0⟩).2 (by decide)

/-- C5: the pixel write rule of `apply_fragment_updates`.  With
    `bufferSize = totalLeds * 3`, an update `(i, r, g, b)` with
    `i*3 + 3 ≤ bufferSize` (i.e. `0 ≤ i*3 ≤ bufferSize - 3` over the
    integers) writes exactly the three bytes `r, g, b` at offsets
    `3*i, 3*i+1, 3*i+2` of the back buffer; an update with `i ≥ totalLeds`
    is dropped without changing any byte. -/
theorem pixel_write_rule (total : Int) (buf : List Nat) (i r g b : Nat)
    (hbuf : (buf.length : Int) = total * 3) :
    ((i : Int) * 3 + 3 ≤ total * 3 →
      (applyPixelUpdate (total * 3) buf (i, r, g, b)).length = buf.length ∧
      (applyPixelUpdate (total * 3) buf (i, r, g, b)).getD (3 * i) 0 = r ∧
      (applyPixelUpdate (total * 3) buf (i, r, g, b)).getD (3 * i + 1) 0 = g ∧
      (applyPixelUpdate (total * 3) buf (i, r, g, b)).getD (3 * i + 2) 0 = b ∧
      (∀ j, j ≠ 3 * i → j ≠ 3 * i + 1 → j ≠ 3 * i + 2 →
        (applyPixelUpdate (total * 3) buf (i, r, g, b)).getD j 0 =
          buf.getD j 0)) ∧
    (total ≤ (i : Int) →
      applyPixelUpdate (total * 3) buf (i, r, g, b) = buf) := by
  constructor
  · intro h
    have hcond : (0 : Int) ≤ (i : Int) * 3 ∧ (i : Int) * 3 < total * 3 - 2 := by
      constructor <;> omega
    have htn : ((i : Int) * 3).toNat = 3 * i := by omega
    have hlt : 3 * i + 2 < buf.length := by omega
    simp only [applyPixelUpdate, if_pos hcond, htn]
    refine ⟨by simp, ?_, ?_, ?_, ?_⟩
    · simp only [List.getD_eq_getElem?_getD]
      rw [List.getElem?_set_ne (by omega), List.getElem?_set_ne (by omega),
        List.getElem?_set_self (by omega)]
      rfl
    · simp only [List.getD_eq_getElem?_getD]
      rw [List.getElem?_set_ne (by omega),
        List.getElem?_set_self (by simp; omega)]
      rfl
    · simp only [List.getD_eq_getElem?_getD]
      rw [List.getElem?_set_self (by simp; omega)]
      rfl
    · intro j hj0 hj1 hj2
      simp only [List.getD_eq_getElem?_getD]
      rw [List.getElem?_set_ne (by omega), List.getElem?_set_ne (by omega),
        List.getElem?_set_ne (by omega)]
  · intro h
    have hcond : ¬ ((0 : Int) ≤ (i : Int) * 3 ∧ (i : Int) * 3 < total * 3 - 2) := by
      omega
    simp only [applyPixelUpdate]
    rw [if_neg hcond]

/-- Witness for C5: an in-range write lands at offset `3*i`, an
    out-of-range index leaves the buffer unchanged. -/
theorem pixel_write_rule_witness :
    (applyPixelUpdate ((2 : Int) * 3) [0, 0, 0, 0, 0, 0] (1, 7, 8, 9)).getD 3 0 = 7 ∧
    applyPixelUpdate ((2 : Int) * 3) [0, 0, 0, 0, 0, 0] (5, 7, 8, 9) =
      [0, 0, 0, 0, 0, 0] := by
  constructor
  · exact ((pixel_write_rule 2 [0, 0, 0, 0, 0, 0] 1 7 8 9 (by decide)).1
      (by decide)).2.1
  · exact (pixel_write_rule 2 [0, 0, 0, 0, 0, 0] 5 7 8 9 (by decide)).2
      (by decide)

/-- Helper: reading five positions past a 5-element head. -/
theorem getD_cons_five (a b c d e : Nat) (rest : List Nat) (m : Nat) :
    (a :: b :: c :: d :: e :: rest).getD (m + 5) 0 = rest.getD m 0 := rfl

/-- Length of the record-parsing loop: it parses `min count (len / 5)`
    records. -/
theorem parseUpdatesLoop_length (n : Nat) :
    ∀ l : List Nat, (parseUpdatesLoop n l).length = min n (l.length / 5) := by
  induction n with
  | zero => intro l; simp [parseUpdatesLoop]
  | succ n ih =>
    intro l
    rcases l with _ | ⟨a, _ | ⟨b, _ | ⟨c, _ | ⟨d, _ | ⟨e, rest⟩⟩⟩⟩⟩ <;>
      simp [parseUpdatesLoop]
    rw [ih rest]
    have h5 : (rest.length + 1 + 1 + 1 + 1 + 1) / 5 = rest.length / 5 + 1 := by
      have : rest.length + 1 + 1 + 1 + 1 + 1 = rest.length + 5 := by omega
      rw [this, Nat.add_div_right _ (by omega)]
    rw [h5]
    omega

/-- Element values of the record-parsing loop: the `j`-th parsed update is
    the 5-byte record at offset `5*j`. -/
theorem parseUpdatesLoop_get (n : Nat) :
    ∀ (l : List Nat) (j : Nat) (hj : j < (parseUpdatesLoop n l).length),
      (parseUpdatesLoop n l).get ⟨j, hj⟩ =
        (l.getD (5 * j) 0 ||| (l.getD (5 * j + 1) 0) <<< 8,
         l.getD (5 * j + 2) 0, l.getD (5 * j + 3) 0, l.getD (5 * j + 4) 0) := by
  induction n with
  | zero => intro l j hj; simp [parseUpdatesLoop] at hj
  | succ n ih =>
    intro l j hj
    rcases l with _ | ⟨a, _ | ⟨b, _ | ⟨c, _ | ⟨d, _ | ⟨e, rest⟩⟩⟩⟩⟩
    · simp [parseUpdatesLoop] at hj
    · simp [parseUpdatesLoop] at hj
    · simp [parseUpdatesLoop] at hj
    · simp [parseUpdatesLoop] at hj
    · simp [parseUpdatesLoop] at hj
    · rcases j with _ | j
      · rfl
      · have hj' : j < (parseUpdatesLoop n rest).length := by
          have hlen := hj
          simp only [parseUpdatesLoop, List.length_cons] at hlen
          omega
        have lhs : (parseUpdatesLoop (n + 1) (a :: b :: c :: d :: e :: rest)).get
            ⟨j + 1, hj⟩ = (parseUpdatesLoop n rest).get ⟨j, hj'⟩ := rfl
        rw [lhs, ih rest j hj']
        have h0 : 5 * (j + 1) = 5 * j + 5 := by ring
        rw [h0]
        have h1 : 5 * j + 5 + 1 = 5 * j + 1 + 5 := by ring
        have h2 : 5 * j + 5 + 2 = 5 * j + 2 + 5 := by ring
        have h3 : 5 * j + 5 + 3 = 5 * j + 3 + 5 := by ring
        have h4 : 5 * j + 5 + 4 = 5 * j + 4 + 5 := by ring
        rw [h1, h2, h3, h4, getD_cons_five, getD_cons_five, getD_cons_five,
          getD_cons_five, getD_cons_five]

/-- C7: `_parse_updates` with a declared count (the FRAGMENT_PIXELS path)
    never rejects: when the declared count would need more bytes than are
    available it parses exactly `len / 5` complete records from the prefix,
    when the declared count fits it parses exactly `count` records, and
    either way the `j`-th parsed update is the little-endian u16 index and
    the three color bytes of the 5-byte record at offset `5*j`. -/
theorem parse_updates_clamp (payload : List Nat) (count : Nat) :
    (payload.length < count * 5 →
      (parse_updates payload (some count)).length = payload.length / 5) ∧
    (count * 5 ≤ payload.length →
      (parse_updates payload (some count)).length = count) ∧
    (∀ j (hj : j < (parse_updates payload (some count)).length),
      (parse_updates payload (some count)).get ⟨j, hj⟩ =
        (payload.getD (5 * j) 0 ||| (payload.getD (5 * j + 1) 0) <<< 8,
         payload.getD (5 * j + 2) 0, payload.getD (5 * j + 3) 0,
         payload.getD (5 * j + 4) 0)) := by
  refine ⟨?_, ?_, ?_⟩
  · intro h
    simp only [parse_updates, if_pos h, parseUpdatesLoop_length]
    omega
  · intro h
    have hnot : ¬ payload.length < count * 5 := by omega
    have hle : count ≤ payload.length / 5 :=
      (Nat.le_div_iff_mul_le (by omega)).2 h
    simp only [parse_updates, if_neg hnot, parseUpdatesLoop_length]
    omega
  · intro j hj
    simp only [parse_updates] at hj ⊢
    exact parseUpdatesLoop_get _ payload j hj

/-- Witness for C7: a declared count of 5 against 12 available bytes parses
    exactly two updates, and the first one is the first 5-byte record. -/
theorem parse_updates_clamp_witness :
    (12 : Nat) < 5 * 5 ∧
    (parse_updates [1, 0, 10, 20, 30, 2, 0, 11, 21, 31, 9, 9] (some 5)).length = 2 ∧
    (parse_updates [1, 0, 10, 20, 30, 2, 0, 11, 21, 31, 9, 9] (some 5)).get
      ⟨0, by decide⟩ = (1, 10, 20, 30) := by
  refine ⟨by decide, ?_, ?_⟩
  · exact (parse_updates_clamp
      [1, 0, 10, 20, 30, 2, 0, 11, 21, 31, 9, 9] 5).1 (by decide)
  · exact ((parse_updates_clamp
      [1, 0, 10, 20, 30, 2, 0, 11, 21, 31, 9, 9] 5).2.2 0 (by decide)).trans
      (by decide)

/-- C10: a FRAGMENT_PIXELS datagram whose declared update count is zero, or
    whose payload holds fewer than 5 bytes after the 5-byte fragment header,
    parses to an empty update list, and `_process_command` then returns
    without calling `apply_fragment_updates`: the frame id, the
    received-fragment set, both buffers and the dirty flag are all
    unchanged. -/
theorem empty_fragment_ignored (bufSize : Int) (s : FrameState)
    (frameId totalFragments fragmentIndex c0 c1 : Nat) (rest : List Nat)
    (h : c0 ||| (c1 <<< 8) = 0 ∨ rest.length < 5) :
    parse_updates rest (some (c0 ||| (c1 <<< 8))) = [] ∧
    process_command bufSize
      (CMD_FRAGMENT_PIXELS :: frameId :: totalFragments :: fragmentIndex ::
        c0 :: c1 :: rest) s = s := by
  have hempty : parse_updates rest (some (c0 ||| (c1 <<< 8))) = [] := by
    rw [← List.length_eq_zero]
    simp only [parse_updates, parseUpdatesLoop_length]
    rcases h with h | h
    · rw [h]; simp
    · have h5 : rest.length / 5 = 0 := Nat.div_eq_of_lt h
      rw [h5]
      simp
  exact ⟨hempty, by simp [process_command, hempty]⟩

/-- Witness for C10: a zero-count fragment datagram leaves a concrete state
    untouched. -/
theorem empty_fragment_ignored_witness :
    process_command 0 (CMD_FRAGMENT_PIXELS :: 1 :: 1 :: 0 :: 0 :: 0 :: [])
      ⟨[], [], true, none, ∅, 0, 0⟩ = ⟨[], [], true, none, ∅, 0, 0⟩ :=
  (empty_fragment_ignored 0 ⟨[], [], true, none, ∅, 0, 0⟩ 1 1 0 0 0 []
    (Or.inl (by decide))).2

/-- Helper: one step of the ceiling-division recurrence used by the
    fragmentation loop. -/
theorem ceil_div_succ (C L : Nat) (hC : 0 < C) (hL : 0 < L) :
    (L + C - 1) / C = ((L - C) + C - 1) / C + 1 := by
  rcases le_or_lt L C with h | h
  · have h1 : L - C = 0 := by omega
    rw [h1]
    have h2 : (0 + C - 1) / C = 0 := Nat.div_eq_of_lt (by omega)
    rw [h2]
    exact Nat.div_eq_of_lt_le (by omega) (by omega)
  · have h2 : L - C + C - 1 = L - 1 := by omega
    have h3 : L + C - 1 = (L - 1) + C := by omega
    rw [h2, h3, Nat.add_div_right _ hC]

/-- Helper: cutting a list into `ceil(len / C)` consecutive chunks of size
    `C` and concatenating them reproduces the list. -/
theorem chunks_flatten (C : Nat) (hC : 0 < C) :
    ∀ (n : Nat) (p : List Nat), (p.length + C - 1) / C = n →
      ((List.range n).map (fun k => (p.drop (k * C)).take C)).flatten = p := by
  intro n
  induction n with
  | zero =>
    intro p hp
    have hlen : p.length = 0 := by
      by_contra hne
      have hpos : 0 < (p.length + C - 1) / C := Nat.div_pos (by omega) hC
      omega
    rw [List.length_eq_zero.mp hlen]
    simp
  | succ n ih =>
    intro p hp
    have hL : 0 < p.length := by
      by_contra hne
      have h0 : p.length = 0 := by omega
      rw [h0] at hp
      have : (0 + C - 1) / C = 0 := Nat.div_eq_of_lt (by omega)
      omega
    have hnext : ((p.drop C).length + C - 1) / C = n := by
      rw [List.length_drop]
      have hrec := ceil_div_succ C p.length hC hL
      omega
    rw [List.range_succ_eq_map, List.map_cons, List.flatten_cons, List.map_map]
    have hmap : (List.range n).map
        ((fun k => (p.drop (k * C)).take C) ∘ Nat.succ) =
        (List.range n).map (fun k => ((p.drop C).drop (k * C)).take C) := by
      refine List.map_congr_left (fun a _ => ?_)
      simp only [Function.comp_apply, List.drop_drop]
      rw [Nat.succ_mul, Nat.add_comm]
    rw [hmap, ih (p.drop C) hnext]
    simp

/-- C6: every QUERY_CONFIG response that is actually sent for a non-empty
    payload of length `L` consists of `ceil(L / C)` fragments (with
    `C = MAX_UDP_PAYLOAD - 6`, the maximum payload minus the 6-byte fragment
    header), the `k`-th fragment being
    `[command, messageId, totalFragments, k, chunkLength as little-endian
    u16, chunkBytes]`, and concatenating the chunk bytes (the bytes after
    the 6-byte header) in fragment order reproduces the payload. -/
theorem config_fragmentation (msgId : Nat) (payload : List Nat)
    (pkts : List (List Nat)) (hL : 0 < payload.length)
    (h : send_device_config msgId payload = some pkts) :
    pkts.length =
      (payload.length + (MAX_UDP_PAYLOAD - 6) - 1) / (MAX_UDP_PAYLOAD - 6) ∧
    (∀ k (hk : k < pkts.length),
      pkts.get ⟨k, hk⟩ =
        [CMD_QUERY_CONFIG, msgId % 256, pkts.length, k] ++
          [((payload.drop (k * (MAX_UDP_PAYLOAD - 6))).take
              (MAX_UDP_PAYLOAD - 6)).length % 256,
           ((payload.drop (k * (MAX_UDP_PAYLOAD - 6))).take
              (MAX_UDP_PAYLOAD - 6)).length / 256 % 256] ++
          (payload.drop (k * (MAX_UDP_PAYLOAD - 6))).take
            (MAX_UDP_PAYLOAD - 6)) ∧
    (pkts.map (fun p => p.drop 6)).flatten = payload := by
  have hmax : max 1 (MAX_UDP_PAYLOAD - 6) = MAX_UDP_PAYLOAD - 6 := by decide
  simp only [send_device_config, hmax] at h
  by_cases hbig :
      255 < (payload.length + (MAX_UDP_PAYLOAD - 6) - 1) / (MAX_UDP_PAYLOAD - 6)
  · rw [if_pos hbig] at h
    exact absurd h (by simp)
  · rw [if_neg hbig] at h
    have hpk := Option.some.inj h
    subst hpk
    refine ⟨by simp, ?_, ?_⟩
    · intro k hk
      simp only [List.length_map, List.length_range] at hk ⊢
      simp only [List.get_eq_getElem, List.getElem_map, List.getElem_range]
    · rw [List.map_map]
      have hchunks : (List.range
          ((payload.length + (MAX_UDP_PAYLOAD - 6) - 1) / (MAX_UDP_PAYLOAD - 6))).map
            ((fun p => p.drop 6) ∘ (fun k =>
              [CMD_QUERY_CONFIG, msgId % 256,
                 (payload.length + (MAX_UDP_PAYLOAD - 6) - 1) / (MAX_UDP_PAYLOAD - 6), k] ++
                [((payload.drop (k * (MAX_UDP_PAYLOAD - 6))).take
                    (MAX_UDP_PAYLOAD - 6)).length % 256,
                 ((payload.drop (k * (MAX_UDP_PAYLOAD - 6))).take
                    (MAX_UDP_PAYLOAD - 6)).length / 256 % 256] ++
                (payload.drop (k * (MAX_UDP_PAYLOAD - 6))).take
                  (MAX_UDP_PAYLOAD - 6))) =
          (List.range
          ((payload.length + (MAX_UDP_PAYLOAD - 6) - 1) / (MAX_UDP_PAYLOAD - 6))).map
            (fun k => (payload.drop (k * (MAX_UDP_PAYLOAD - 6))).take
              (MAX_UDP_PAYLOAD - 6)) :=
        List.map_congr_left (fun a _ => rfl)
      rw [hchunks, chunks_flatten (MAX_UDP_PAYLOAD - 6) (by decide) _ payload rfl]

/-- Helper: under a matching current frame id, `apply_fragment_updates`
    skips the reset and either swaps (when the received set reaches the
    declared total) or records the fragment. -/
theorem applyFragmentUpdates_locked (bufSize : Int) (F N i : Nat)
    (ups : List PixelUpdate) (s : FrameState)
    (h : s.current_frame_id = some F) :
    applyFragmentUpdates bufSize F N i ups s =
      if s.frame_total_fragments ≤ (insert i s.frame_fragments_received).card
      then
        { s with front := applyPixelUpdates bufSize s.back ups,
                 back := s.front, dirty := true,
                 frame_fragments_received := ∅,
                 swapCount := s.swapCount + 1 }
      else
        { s with back := applyPixelUpdates bufSize s.back ups,
                 frame_fragments_received :=
                   insert i s.frame_fragments_received } := by
  simp [applyFragmentUpdates, h]

/-- Helper for C2: running the delivery loop from a state already locked on
    frame `F` with declared total `N` and received set `A`.  As long as no
    proper prefix of the deliveries completes the distinct-index set to
    `{0..N-1}`, exactly one swap happens, on the final call. -/
theorem deliver_swap_loop (bufSize : Int) (F N : Nat)
    (frags : List (Nat × List PixelUpdate)) :
    ∀ (A : Finset Nat) (s : FrameState),
      s.current_frame_id = some F →
      s.frame_total_fragments = N →
      s.frame_fragments_received = A →
      A ⊆ Finset.range N →
      A ≠ Finset.range N →
      (∀ fr ∈ frags, fr.1 < N) →
      (∀ k, k < frags.length →
        A ∪ ((frags.take k).map Prod.fst).toFinset ≠ Finset.range N) →
      A ∪ (frags.map Prod.fst).toFinset = Finset.range N →
      (deliverFragments bufSize F N frags s).swapCount = s.swapCount + 1 ∧
      ∀ k, k < frags.length →
        (deliverFragments bufSize F N (frags.take k) s).swapCount =
          s.swapCount := by
  induction frags with
  | nil =>
    intro A s h1 h2 h3 hsub hne hlt hnc hfull
    simp only [List.map_nil, List.toFinset_nil, Finset.union_empty] at hfull
    exact absurd hfull hne
  | cons fr rest ih =>
    intro A s h1 h2 h3 hsub hne hlt hnc hfull
    have hfr1 : fr.1 < N := hlt fr (List.mem_cons_self fr rest)
    have hstep : deliverFragments bufSize F N (fr :: rest) s =
        deliverFragments bufSize F N rest
          (applyFragmentUpdates bufSize F N fr.1 fr.2 s) := rfl
    by_cases hcomplete : insert fr.1 A = Finset.range N
    · -- the first call completes the frame; no later call may exist
      have hrest : rest = [] := by
        rcases rest with _ | ⟨fr2, rest'⟩
        · rfl
        · exfalso
          have h := hnc 1 (by simp)
          have ht : (fr :: fr2 :: rest').take 1 = [fr] := rfl
          rw [ht] at h
          simp only [List.map_cons, List.map_nil, List.toFinset_cons,
            List.toFinset_nil, Finset.union_insert, Finset.union_empty] at h
          exact h hcomplete
      subst hrest
      have hcard : s.frame_total_fragments ≤
          (insert fr.1 s.frame_fragments_received).card := by
        rw [h2, h3, hcomplete, Finset.card_range]
      have hst1 := applyFragmentUpdates_locked bufSize F N fr.1 fr.2 s h1
      rw [if_pos hcard] at hst1
      refine ⟨?_, ?_⟩
      · rw [hstep, hst1]
        rfl
      · intro k hk
        have hk0 : k = 0 := by
          simp only [List.length_cons, List.length_nil] at hk
          omega
        subst hk0
        rfl
    · -- the first call only records the fragment
      have hins_sub : insert fr.1 A ⊆ Finset.range N := by
        intro x hx
        rcases Finset.mem_insert.mp hx with h' | h'
        · exact h' ▸ Finset.mem_range.mpr hfr1
        · exact hsub h'
      have hlt_card : (insert fr.1 A).card < N := by
        have hss : insert fr.1 A ⊂ Finset.range N :=
          ⟨hins_sub, fun hcon => hcomplete
            (le_antisymm hins_sub hcon)⟩
        have := Finset.card_lt_card hss
        simpa [Finset.card_range] using this
      have hnotcard : ¬ s.frame_total_fragments ≤
          (insert fr.1 s.frame_fragments_received).card := by
        rw [h2, h3]
        omega
      have hst1 := applyFragmentUpdates_locked bufSize F N fr.1 fr.2 s h1
      rw [if_neg hnotcard] at hst1
      have hnc' : ∀ k, k < rest.length →
          insert fr.1 A ∪ ((rest.take k).map Prod.fst).toFinset ≠
            Finset.range N := by
        intro k hk
        have h := hnc (k + 1) (by
          simp only [List.length_cons]
          omega)
        have ht : (fr :: rest).take (k + 1) = fr :: rest.take k := rfl
        rw [ht] at h
        simp only [List.map_cons, List.toFinset_cons, Finset.union_insert] at h
        rw [Finset.insert_union]
        exact h
      have hfull' : insert fr.1 A ∪ (rest.map Prod.fst).toFinset =
          Finset.range N := by
        have h := hfull
        simp only [List.map_cons, List.toFinset_cons, Finset.union_insert] at h
        rw [Finset.insert_union]
        exact h
      obtain ⟨hfin, hpre⟩ := ih (insert fr.1 A)
        { s with back := applyPixelUpdates bufSize s.back fr.2,
                 frame_fragments_received :=
                   insert fr.1 s.frame_fragments_received }
        h1 h2 (by rw [h3]) hins_sub hcomplete
        (fun fr' hm => hlt fr' (List.mem_cons_of_mem _ hm)) hnc' hfull'
      refine ⟨?_, ?_⟩
      · rw [hstep, hst1, hfin]
      · intro k hk
        rcases k with _ | j
        · rfl
        · have hj : j < rest.length := by
            simp only [List.length_cons] at hk
            omega
          have ht : (fr :: rest).take (j + 1) = fr :: rest.take j := rfl
          rw [ht]
          have hd : deliverFragments bufSize F N (fr :: rest.take j) s =
              deliverFragments bufSize F N (rest.take j)
                (applyFragmentUpdates bufSize F N fr.1 fr.2 s) := rfl
          rw [hd, hst1]
          exact hpre j hj

/-- C2: starting from a runtime not currently on frame `F`, delivering a
    sequence of fragments of frame `F` (all declaring `N` total fragments)
    whose distinct indices are exactly `{0..N-1}` and whose every proper
    prefix is still missing some index (so re-deliveries happen only before
    completion) swaps the buffers exactly once, on the final call — the call
    at which the count of distinct received indices first reaches `N`; no
    earlier call (in particular no re-delivered index) swaps. -/
theorem frame_reassembly_single_swap (bufSize : Int) (F N : Nat)
    (frags : List (Nat × List PixelUpdate)) (s : FrameState)
    (hstart : s.current_frame_id ≠ some F) (hN : 0 < N)
    (hidx : ∀ fr ∈ frags, fr.1 < N)
    (hfull : (frags.map Prod.fst).toFinset = Finset.range N)
    (hbefore : ∀ k, k < frags.length →
      ((frags.take k).map Prod.fst).toFinset ≠ Finset.range N) :
    (deliverFragments bufSize F N frags s).swapCount = s.swapCount + 1 ∧
    ∀ k, k < frags.length →
      (deliverFragments bufSize F N (frags.take k) s).swapCount =
        s.swapCount := by
  rcases frags with _ | ⟨fr, rest⟩
  · exfalso
    simp only [List.map_nil, List.toFinset_nil] at hfull
    have h0 : (0 : Nat) ∈ Finset.range N := Finset.mem_range.mpr hN
    rw [← hfull] at h0
    simp at h0
  · set s' : FrameState :=
      { s with current_frame_id := some F,
               frame_fragments_received := ∅,
               frame_total_fragments := N } with hs'
    have hreset : ∀ (i : Nat) (ups : List PixelUpdate),
        applyFragmentUpdates bufSize F N i ups s =
          applyFragmentUpdates bufSize F N i ups s' := by
      intro i ups
      rw [hs']
      simp [applyFragmentUpdates, hstart]
    have hempty_ne : (∅ : Finset Nat) ≠ Finset.range N := by
      intro hcon
      have h0 : (0 : Nat) ∈ Finset.range N := Finset.mem_range.mpr hN
      rw [← hcon] at h0
      simp at h0
    obtain ⟨hfin, hpre⟩ := deliver_swap_loop bufSize F N (fr :: rest) ∅ s'
      rfl rfl rfl (Finset.empty_subset _) hempty_ne hidx
      (by
        intro k hk
        simpa using hbefore k hk)
      (by simpa using hfull)
    refine ⟨?_, ?_⟩
    · have hd : deliverFragments bufSize F N (fr :: rest) s =
          deliverFragments bufSize F N rest
            (applyFragmentUpdates bufSize F N fr.1 fr.2 s) := rfl
      rw [hd, hreset fr.1 fr.2]
      exact hfin
    · intro k hk
      rcases k with _ | j
      · rfl
      · have ht : (fr :: rest).take (j + 1) = fr :: rest.take j := rfl
        rw [ht]
        have hd : deliverFragments bufSize F N (fr :: rest.take j) s =
            deliverFragments bufSize F N (rest.take j)
              (applyFragmentUpdates bufSize F N fr.1 fr.2 s) := rfl
        rw [hd, hreset fr.1 fr.2]
        exact hpre (j + 1) hk

/-- Helper: `dropWhile` never exposes a satisfying head. -/
theorem dropWhile_head_false (p : Char → Bool) :
    ∀ (l : List Char) (b : Char) (u : List Char),
      l.dropWhile p = b :: u → p b = false := by
  intro l
  induction l with
  | nil => intro b u h; simp at h
  | cons x xs ih =>
    intro b u h
    rw [List.dropWhile_cons] at h
    split at h
    · exact ih b u h
    · rename_i hx
      injection h with h1 _
      subst h1
      cases hpx : p x
      · rfl
      · exact absurd hpx hx

/-- Helper: `dropWhile` is idempotent. -/
theorem dropWhile_idem (p : Char → Bool) (l : List Char) :
    (l.dropWhile p).dropWhile p = l.dropWhile p := by
  cases hd : l.dropWhile p with
  | nil => rfl
  | cons b u =>
    have hb := dropWhile_head_false p l b u hd
    rw [List.dropWhile_cons, hb]
    simp

/-- Helper: Python `strip` is idempotent. -/
theorem stripChars_idem (l : List Char) :
    stripChars (stripChars l) = stripChars l := by
  cases hB : (l.dropWhile Char.isWhitespace).reverse.dropWhile
      Char.isWhitespace with
  | nil =>
    have hR : stripChars l = [] := by
      rw [stripChars, hB, List.reverse_nil]
    rw [hR]
    rfl
  | cons b u =>
    have hR : stripChars l = (b :: u).reverse := by rw [stripChars, hB]
    have hb : Char.isWhitespace b = false :=
      dropWhile_head_false _ _ b u hB
    rcases hA2 : l.dropWhile Char.isWhitespace with _ | ⟨a, t⟩
    · rw [hA2] at hB
      simp at hB
    · have ha : Char.isWhitespace a = false := dropWhile_head_false _ _ a t hA2
      obtain ⟨pre, hpre⟩ := List.dropWhile_suffix (p := Char.isWhitespace)
        (l := (l.dropWhile Char.isWhitespace).reverse)
      rw [hB, hA2] at hpre
      -- hpre : pre ++ b :: u = (a :: t).reverse
      have hrev : (b :: u).reverse ++ pre.reverse = a :: t := by
        have hc := congrArg List.reverse hpre
        rw [List.reverse_append, List.reverse_reverse] at hc
        exact hc
      rcases hRsh : (b :: u).reverse with _ | ⟨r0, rr⟩
      · have hlen : (b :: u).reverse.length = u.length + 1 := by simp
        rw [hRsh] at hlen
        simp at hlen
      · have hr0 : r0 = a := by
          rw [hRsh] at hrev
          have hc : r0 :: (rr ++ pre.reverse) = a :: t := by simpa using hrev
          injection hc with h1 _
        subst hr0
        rw [hR, stripChars, hRsh, List.dropWhile_cons, ha]
        simp only [Bool.false_eq_true, if_false]
        have hrr : (r0 :: rr).reverse = b :: u := by
          rw [← hRsh, List.reverse_reverse]
        rw [hrr, List.dropWhile_cons, hb]
        simp only [Bool.false_eq_true, if_false]
        exact hRsh

/-- Helper: Python `str.strip` is idempotent. -/
theorem pyStrip_idem (s : String) : pyStrip (pyStrip s) = pyStrip s := by
  simp only [pyStrip]
  exact congrArg String.mk (stripChars_idem s.data)

/-- Helper: `normalize_output_type` only returns the three canonical
    names. -/
theorem normalize_ok_canonical (s t : String)
    (h : normalize_output_type s = .ok t) :
    t = "Single" ∨ t = "Linear" ∨ t = "Matrix" := by
  simp only [normalize_output_type] at h
  split at h
  · exact absurd h (by simp)
  · split at h
    · exact Or.inl (Except.ok.inj h).symm
    · split at h
      · exact Or.inr (Or.inl (Except.ok.inj h).symm)
      · split at h
        · exact Or.inr (Or.inr (Except.ok.inj h).symm)
        · split at h
          · rename_i hv
            have hvt := Except.ok.inj h
            rcases hv with h' | h' | h'
            · exact Or.inl (hvt ▸ h')
            · exact Or.inr (Or.inl (hvt ▸ h'))
            · exact Or.inr (Or.inr (hvt ▸ h'))
          · exact absurd h (by simp)

/-- Helper: every output accepted by `parse_output` satisfies the
    round-trip invariants. -/
theorem parse_output_wf (r : RawOutput) (out : OutputConfig)
    (h : parse_output r = .ok out) : WFOutput out := by
  simp only [parse_output] at h
  split at h
  · exact absurd h (by simp)
  · rename_i hid
    split at h
    · exact absurd h (by simp)
    · rename_i output_type hnorm
      have htyp3 : output_type = "Single" ∨ output_type = "Linear" ∨
          output_type = "Matrix" := by
        rcases hrt : r.output_type with _ | s
        · rw [hrt] at hnorm
          exact absurd hnorm (by simp)
        · rw [hrt] at hnorm
          exact normalize_ok_canonical s output_type hnorm
      have hname1 : pyStrip (if pyStrip r.name = "" then pyStrip r.id
          else pyStrip r.name) =
          (if pyStrip r.name = "" then pyStrip r.id else pyStrip r.name) := by
        by_cases hn : pyStrip r.name = ""
        · rw [if_pos hn, pyStrip_idem]
        · rw [if_neg hn, pyStrip_idem]
      have hname2 : (if pyStrip r.name = "" then pyStrip r.id
          else pyStrip r.name) ≠ "" := by
        by_cases hn : pyStrip r.name = ""
        · rw [if_pos hn]; exact hid
        · rw [if_neg hn]; exact hn
      split at h
      · rename_i hS
        split at h
        · exact absurd h (by simp)
        · have hrec := (Except.ok.inj h).symm
          subst hrec
          exact ⟨pyStrip_idem _, hid, hname1, hname2, Or.inl ⟨hS, rfl, rfl⟩⟩
      · rename_i hnS
        split at h
        · rename_i hL
          split at h
          · exact absurd h (by simp)
          · split at h
            · exact absurd h (by simp)
            · rename_i hpos
              have hrec := (Except.ok.inj h).symm
              subst hrec
              exact ⟨pyStrip_idem _, hid, hname1, hname2,
                Or.inr (Or.inl ⟨hL, not_le.mp hpos, rfl⟩)⟩
          · split at h
            · exact absurd h (by simp)
            · rename_i hpos
              have hrec := (Except.ok.inj h).symm
              subst hrec
              exact ⟨pyStrip_idem _, hid, hname1, hname2,
                Or.inr (Or.inl ⟨hL, not_le.mp hpos, rfl⟩)⟩
          · split at h
            · exact absurd h (by simp)
            · rename_i hpos
              split at h
              · exact absurd h (by simp)
              · have hrec := (Except.ok.inj h).symm
                subst hrec
                refine ⟨pyStrip_idem _, hid, hname1, hname2,
                  Or.inr (Or.inl ⟨hL, ?_, rfl⟩)⟩
                dsimp only
                omega
        · rename_i hnL
          split at h
          · exact absurd h (by simp)
          · rename_i matrix hpm
            split at h
            · exact absurd h (by simp)
            · rename_i derived hd
              have hM : output_type = "Matrix" := by tauto
              split at h
              · rename_i hinted hhint
                split at h
                · exact absurd h (by simp)
                · have hrec := (Except.ok.inj h).symm
                  subst hrec
                  exact ⟨pyStrip_idem _, hid, hname1, hname2,
                    Or.inr (Or.inr ⟨hM, matrix, rfl, hd⟩)⟩
              · have hrec := (Except.ok.inj h).symm
                subst hrec
                exact ⟨pyStrip_idem _, hid, hname1, hname2,
                  Or.inr (Or.inr ⟨hM, matrix, rfl, hd⟩)⟩

/-- Helper: concrete evaluation of `normalize_output_type` at `"Single"`. -/
theorem normalize_single : normalize_output_type "Single" = .ok "Single" := by
  decide

/-- Helper: concrete evaluation of `normalize_output_type` at `"Linear"`. -/
theorem normalize_linear : normalize_output_type "Linear" = .ok "Linear" := by
  decide

/-- Helper: concrete evaluation of `normalize_output_type` at `"Matrix"`. -/
theorem normalize_matrix : normalize_output_type "Matrix" = .ok "Matrix" := by
  decide

/-- Helper: a well-formed output encodes to a raw dict that parses back to
    the very same output. -/
theorem wf_output_roundtrip (out : OutputConfig) (h : WFOutput out) :
    ∃ enc, output_to_raw out = .ok enc ∧ parse_output enc = .ok out := by
  rcases out with ⟨oid, onm, oty, ocnt, omx⟩
  dsimp only [WFOutput] at h
  obtain ⟨hid1, hid2, hnm1, hnm2, htyp⟩ := h
  rcases htyp with ⟨hty, hcnt, hmx⟩ | ⟨hty, hcnt, hmx⟩ | ⟨hty, mm, hmx, hlc⟩
  · subst hty hcnt hmx
    refine ⟨⟨oid, onm, some "Single", some 1, none, none⟩, rfl, ?_⟩
    simp only [parse_output]
    rw [hid1, if_neg hid2, hnm1, if_neg hnm2, normalize_single]
    simp
  · subst hty hmx
    have hle : ¬ (ocnt ≤ 0) := not_le.mpr hcnt
    refine ⟨⟨oid, onm, some "Linear", some ocnt, some ocnt, none⟩, rfl, ?_⟩
    simp only [parse_output]
    rw [hid1, if_neg hid2, hnm1, if_neg hnm2, normalize_linear]
    simp [hle]
  · subst hty hmx
    have hlc' : leds_count_from_matrix_map oid
        ⟨mm.width, mm.height, mm.map⟩ = .ok ocnt := hlc
    refine ⟨⟨oid, onm, some "Matrix", some ocnt, none,
      some ⟨mm.width, mm.height, mm.map⟩⟩, rfl, ?_⟩
    simp only [parse_output]
    rw [hid1, if_neg hid2, hnm1, if_neg hnm2, normalize_matrix]
    simp [parse_matrix_map, hlc', hlc]

/-- Helper: the output-parsing loop round-trips — every accepted output
    list re-encodes to raw dicts that parse back identically, against the
    same set of already-used ids. -/
theorem parse_outputs_roundtrip :
    ∀ (rs : List RawOutput) (ids : List String) (outs : List OutputConfig),
      parseOutputsLoop rs ids = .ok outs →
      ∃ encs, encodeOutputs outs = .ok encs ∧
        parseOutputsLoop encs ids = .ok outs ∧ encs.length = rs.length := by
  intro rs
  induction rs with
  | nil =>
    intro ids outs h
    have hh := Except.ok.inj h
    subst hh
    exact ⟨[], rfl, rfl, rfl⟩
  | cons r rs ih =>
    intro ids outs h
    simp only [parseOutputsLoop] at h
    split at h
    · exact absurd h (by simp)
    · rename_i out hout
      split at h
      · exact absurd h (by simp)
      · rename_i hnotmem
        split at h
        · exact absurd h (by simp)
        · rename_i outs' hrec
          have hinj := Except.ok.inj h
          subst hinj
          obtain ⟨enc, henc, hparse⟩ :=
            wf_output_roundtrip out (parse_output_wf r out hout)
          obtain ⟨encs', hencs, hloop, hlenr⟩ := ih (out.id :: ids) outs' hrec
          refine ⟨enc :: encs', ?_, ?_, by simp [hlenr]⟩
          · simp only [encodeOutputs, henc, hencs]
          · simp only [parseOutputsLoop, hparse]
            rw [if_neg hnotmem]
            simp only [hloop]

/-- C3: a configuration accepted by `device_config_from_dict` re-encodes
    through `device_config_to_dict` to a raw dict that parses back to an
    equal configuration (the round-trip law), including the `length` field
    for Linear outputs and the `matrix{width, height, map}` block for
    Matrix outputs. -/
theorem config_roundtrip (raw : RawConfig) (c : DeviceConfig)
    (h : device_config_from_dict raw = .ok c) :
    ∃ enc, device_config_to_dict c = .ok enc ∧
      device_config_from_dict enc = .ok c := by
  simp only [device_config_from_dict] at h
  split at h
  · exact absurd h (by simp)
  · rename_i houts
    split at h
    · exact absurd h (by simp)
    · rename_i outs hloop
      have hc := Except.ok.inj h
      obtain ⟨encs, hencs, hreparse, hlen⟩ :=
        parse_outputs_roundtrip raw.outputs [] outs hloop
      have hdn : pyStrip c.device_name = c.device_name ∧
          c.device_name ≠ "" := by
        rw [← hc]
        dsimp only
        by_cases hdn0 : pyStrip (raw.device_name.getD DEFAULT_DEVICE_NAME) = ""
        · rw [if_pos hdn0]
          exact ⟨by decide, by decide⟩
        · rw [if_neg hdn0]
          exact ⟨pyStrip_idem _, hdn0⟩
      have hco : c.outputs = outs := by rw [← hc]
      have hnenil : encs ≠ [] := by
        intro hn
        rw [hn] at hlen
        simp only [List.length_nil] at hlen
        exact houts (List.length_eq_zero.mp hlen.symm)
      refine ⟨⟨some c.schema_version, some c.device_name, some c.udp_port,
        some c.pixel_size, encs⟩, ?_, ?_⟩
      · simp only [device_config_to_dict, hco]
        rw [hencs]
      · simp only [device_config_from_dict, Option.getD_some]
        rw [hdn.1, if_neg hdn.2, if_neg hnenil, hreparse]
        rw [← hco]

/-- Witness for C3: a concrete parsed config re-encodes and re-parses to
    itself. -/
theorem config_roundtrip_witness :
    device_config_to_dict cEx3 = .ok encEx3 ∧
    device_config_from_dict encEx3 = .ok cEx3 := by
  obtain ⟨enc, h1, h2⟩ := config_roundtrip rawEx3 cEx3 (by decide)
  have h3 : Except.ok enc = Except.ok encEx3 :=
    h1.symm.trans (by decide)
  have he := Except.ok.inj h3
  subst he
  exact ⟨h1, h2⟩

/-- Helper: `filterMap id` drops a null head. -/
theorem filterMap_id_cons_none (rest : List (Option Int)) :
    (none :: rest).filterMap id = rest.filterMap id := rfl

/-- Helper: `filterMap id` keeps a non-null head. -/
theorem filterMap_id_cons_some (a : Int) (rest : List (Option Int)) :
    (some a :: rest).filterMap id = a :: rest.filterMap id := rfl

/-- Helper: reading the cell just set. -/
theorem getD_set_self_true (l : List Bool) (i : Nat) (hi : i < l.length) :
    (l.set i true).getD i false = true := by
  simp [List.getD_eq_getElem?_getD, List.getElem?_set_self hi]

/-- Helper: reading another cell after a `set`. -/
theorem getD_set_other (l : List Bool) (i j : Nat) (hij : i ≠ j) :
    (l.set i true).getD j false = l.getD j false := by
  simp [List.getD_eq_getElem?_getD, List.getElem?_set_ne hij]

/-- Helper: a fresh `seen` array is all-false. -/
theorem getD_replicate_false (k j : Nat) :
    (List.replicate k false).getD j false = false := by
  simp only [List.getD_eq_getElem?_getD, List.getElem?_replicate]
  split <;> rfl

/-- Helper: a successful first pass means every non-null entry is
    non-negative. -/
theorem maxIdxPass_ok_nonneg (oid : String) :
    ∀ (l : List (Option Int)) (acc r : Option Int),
      maxIdxPass oid l acc = .ok r → ∀ v ∈ l.filterMap id, 0 ≤ v := by
  intro l
  induction l with
  | nil => intro acc r _ v hv; simp at hv
  | cons o rest ih =>
    intro acc r h v hv
    rcases o with _ | a
    · exact ih acc r h v (by rwa [filterMap_id_cons_none] at hv)
    · simp only [maxIdxPass] at h
      split at h
      · exact absurd h (by simp)
      · rename_i hnneg
        rw [filterMap_id_cons_some] at hv
        rcases List.mem_cons.mp hv with rfl | hv'
        · omega
        · exact ih _ r h v hv'

/-- Helper: the first pass yields `none` only when there is no non-null
    entry (and the accumulator started empty). -/
theorem maxIdxPass_ok_none (oid : String) :
    ∀ (l : List (Option Int)) (acc : Option Int),
      maxIdxPass oid l acc = .ok none →
      acc = none ∧ l.filterMap id = [] := by
  intro l
  induction l with
  | nil =>
    intro acc h
    exact ⟨Except.ok.inj h, rfl⟩
  | cons o rest ih =>
    intro acc h
    rcases o with _ | a
    · obtain ⟨h1, h2⟩ := ih acc h
      exact ⟨h1, by rwa [filterMap_id_cons_none]⟩
    · simp only [maxIdxPass] at h
      split at h
      · exact absurd h (by simp)
      · obtain ⟨h1, _⟩ := ih _ h
        exact absurd h1 (by simp)

/-- Helper: the first pass returns the maximum of the non-null entries and
    the accumulator. -/
theorem maxIdxPass_ok_some (oid : String) :
    ∀ (l : List (Option Int)) (acc : Option Int) (mx : Int),
      maxIdxPass oid l acc = .ok (some mx) →
      (mx ∈ l.filterMap id ∨ acc = some mx) ∧
      (∀ v ∈ l.filterMap id, v ≤ mx) ∧
      (∀ a, acc = some a → a ≤ mx) := by
  intro l
  induction l with
  | nil =>
    intro acc mx h
    have hacc := Except.ok.inj h
    subst hacc
    refine ⟨Or.inr rfl, by simp, fun a ha => ?_⟩
    exact le_of_eq (Option.some.inj ha).symm
  | cons o rest ih =>
    intro acc mx h
    rcases o with _ | a
    · obtain ⟨h1, h2, h3⟩ := ih acc mx h
      exact ⟨by rwa [filterMap_id_cons_none], by rwa [filterMap_id_cons_none],
        h3⟩
    · simp only [maxIdxPass] at h
      split at h
      · exact absurd h (by simp)
      · rename_i hnneg
        rcases acc with _ | b
        · obtain ⟨h1, h2, h3⟩ := ih (some a) mx h
          have hamx : a ≤ mx := h3 a rfl
          refine ⟨?_, ?_, ?_⟩
          · rcases h1 with hm | hacc
            · exact Or.inl (by
                rw [filterMap_id_cons_some]
                exact List.mem_cons_of_mem _ hm)
            · have ha : a = mx := Option.some.inj hacc
              exact Or.inl (by
                rw [filterMap_id_cons_some, ha]
                exact List.mem_cons_self _ _)
          · intro v hv
            rw [filterMap_id_cons_some] at hv
            rcases List.mem_cons.mp hv with rfl | hv'
            · exact hamx
            · exact h2 v hv'
          · intro c hc
            exact absurd hc (by simp)
        · obtain ⟨h1, h2, h3⟩ := ih (some (max b a)) mx h
          have hamx : max b a ≤ mx := h3 _ rfl
          refine ⟨?_, ?_, ?_⟩
          · rcases h1 with hm | hacc
            · exact Or.inl (by
                rw [filterMap_id_cons_some]
                exact List.mem_cons_of_mem _ hm)
            · have hmax : max b a = mx := Option.some.inj hacc
              rcases max_choice b a with hb | hb
              · exact Or.inr (by rw [← hb, hmax])
              · have ha : a = mx := by rw [← hb, hmax]
                exact Or.inl (by
                  rw [filterMap_id_cons_some, ha]
                  exact List.mem_cons_self _ _)
          · intro v hv
            rw [filterMap_id_cons_some] at hv
            rcases List.mem_cons.mp hv with rfl | hv'
            · have := le_max_right b v
              omega
            · exact h2 v hv'
          · intro c hc
            have hbc : b = c := Option.some.inj hc
            subst hbc
            have := le_max_left b a
            omega

/-- Helper: a successful second pass means the non-null entries are below
    `ledsCount`, pairwise distinct and previously unseen, and the final
    `seen` array has a cell set exactly when it was already set or some
    entry addresses it. -/
theorem seenPass_ok_char (oid : String) (n : Int) :
    ∀ (l : List (Option Int)) (seen seen' : List Bool),
      (∀ v ∈ l.filterMap id, 0 ≤ v) →
      n.toNat ≤ seen.length →
      seenPass oid n l seen = .ok seen' →
      (∀ v ∈ l.filterMap id, v < n ∧ seen.getD v.toNat false = false) ∧
      (l.filterMap id).Nodup ∧
      seen'.length = seen.length ∧
      (∀ j : Nat, seen'.getD j false = true ↔
        (seen.getD j false = true ∨ ∃ v ∈ l.filterMap id, v.toNat = j)) := by
  intro l
  induction l with
  | nil =>
    intro seen seen' _ _ h
    have heq := Except.ok.inj h
    subst heq
    refine ⟨by simp, by simp, rfl, fun j => ?_⟩
    simp
  | cons o rest ih =>
    intro seen seen' hnneg hlen h
    rcases o with _ | a
    · obtain ⟨h1, h2, h3, h4⟩ := ih seen seen'
        (fun v hv => hnneg v (by rwa [filterMap_id_cons_none])) hlen h
      refine ⟨?_, by rwa [filterMap_id_cons_none], h3, fun j => ?_⟩
      · intro v hv
        exact h1 v (by rwa [filterMap_id_cons_none] at hv)
      · rw [h4 j, filterMap_id_cons_none]
    · simp only [seenPass] at h
      split at h
      · exact absurd h (by simp)
      · rename_i hlt
        split at h
        · exact absurd h (by simp)
        · rename_i hunseen
          have ha0 : 0 ≤ a := hnneg a (by
            rw [filterMap_id_cons_some]
            exact List.mem_cons_self _ _)
          have haN : a < n := by omega
          have hatoNat : a.toNat < seen.length := by omega
          have hseenA : seen.getD a.toNat false = false := by
            cases hsa : seen.getD a.toNat false
            · rfl
            · exact absurd hsa hunseen
          obtain ⟨h1, h2, h3, h4⟩ := ih (seen.set a.toNat true) seen'
            (fun v hv => hnneg v (by
              rw [filterMap_id_cons_some]
              exact List.mem_cons_of_mem _ hv))
            (by simpa using hlen) h
          refine ⟨?_, ?_, by simpa using h3, fun j => ?_⟩
          · intro v hv
            rw [filterMap_id_cons_some] at hv
            rcases List.mem_cons.mp hv with rfl | hv'
            · exact ⟨haN, hseenA⟩
            · obtain ⟨hvn, hvseen⟩ := h1 v hv'
              refine ⟨hvn, ?_⟩
              by_cases hjj : a.toNat = v.toNat
              · have hv0 : 0 ≤ v := hnneg v (by
                  rw [filterMap_id_cons_some]
                  exact List.mem_cons_of_mem _ hv')
                have hst : (seen.set a.toNat true).getD v.toNat false = true := by
                  rw [hjj] at hatoNat ⊢
                  exact getD_set_self_true seen v.toNat hatoNat
                rw [hst] at hvseen
                exact absurd hvseen (by simp)
              · rwa [getD_set_other _ _ _ hjj] at hvseen
          · rw [filterMap_id_cons_some]
            rw [List.nodup_cons]
            refine ⟨?_, h2⟩
            intro hmem
            obtain ⟨_, hfalse⟩ := h1 a hmem
            rw [getD_set_self_true _ _ hatoNat] at hfalse
            exact absurd hfalse (by simp)
          · rw [h4 j, filterMap_id_cons_some]
            constructor
            · rintro (hs | ⟨v, hv, rfl⟩)
              · by_cases hjj : a.toNat = j
                · exact Or.inr ⟨a, List.mem_cons_self _ _, hjj⟩
                · rw [getD_set_other _ _ _ hjj] at hs
                  exact Or.inl hs
              · exact Or.inr ⟨v, List.mem_cons_of_mem _ hv, rfl⟩
            · rintro (hs | ⟨v, hv, rfl⟩)
              · left
                by_cases hjj : a.toNat = j
                · rw [← hjj]
                  exact getD_set_self_true _ _ hatoNat
                · rw [getD_set_other _ _ _ hjj]
                  exact hs
              · rcases List.mem_cons.mp hv with rfl | hv'
                · exact Or.inl (getD_set_self_true _ _ hatoNat)
                · exact Or.inr ⟨v, hv', rfl⟩

/-- Helper: everything a successful `leds_count_from_matrix_map` implies:
    valid shape, `ledsCount = 1 + max`, entry count `= ledsCount`, and the
    non-null entries enumerate `0..ledsCount-1` without duplicates. -/
theorem leds_count_ok_char (oid : String) (m : MatrixMapConfig) (n : Int)
    (h : leds_count_from_matrix_map oid m = .ok n) :
    0 < m.width ∧ 0 < m.height ∧
    (m.map.length : Int) = m.width * m.height ∧
    (n - 1) ∈ m.map.filterMap id ∧
    (∀ v ∈ m.map.filterMap id, v ≤ n - 1) ∧
    (m.map.filterMap id).Nodup ∧
    (∀ k : Int, k ∈ m.map.filterMap id ↔ 0 ≤ k ∧ k < n) ∧
    ((m.map.filterMap id).length : Int) = n := by
  simp only [leds_count_from_matrix_map] at h
  split at h
  · exact absurd h (by simp)
  · rename_i hshape
    split at h
    · exact absurd h (by simp)
    · rename_i hlen
      split at h
      · exact absurd h (by simp)
      · exact absurd h (by simp)
      · rename_i mx hmax
        split at h
        · exact absurd h (by simp)
        · rename_i seen' hseen
          split at h
          · exact absurd h (by simp)
          · rename_i hany
            have hn := Except.ok.inj h
            subst hn
            push_neg at hshape
            obtain ⟨hw0, hh0⟩ := hshape
            have hlen' : (m.map.length : Int) = m.width * m.height := by
              by_contra hc
              exact hlen hc
            have hnneg := maxIdxPass_ok_nonneg oid m.map none _ hmax
            obtain ⟨hmem0, hub, _⟩ := maxIdxPass_ok_some oid m.map none mx hmax
            have hmem : mx ∈ m.map.filterMap id := by
              rcases hmem0 with h' | h'
              · exact h'
              · exact absurd h' (by simp)
            have hmx0 : 0 ≤ mx := hnneg mx hmem
            obtain ⟨hbelow, hnodup, hslen, hchar⟩ := seenPass_ok_char oid
              (mx + 1) m.map (List.replicate (mx + 1).toNat false) seen'
              hnneg (by simp) hseen
            have hall : ∀ j, j < seen'.length → seen'.getD j false = true := by
              intro j hj
              by_contra hc
              have hfalse : seen'.getD j false = false := by
                cases hv : seen'.getD j false
                · rfl
                · exact absurd hv hc
              apply hany
              rw [List.any_eq_true]
              have hgd : seen'.getD j false = seen'.get ⟨j, hj⟩ := by
                simp [List.getD_eq_getElem?_getD, List.getElem?_eq_getElem hj]
              rw [hgd] at hfalse
              refine ⟨false, ?_, rfl⟩
              exact hfalse ▸ List.get_mem seen' j hj
            have hcover : ∀ k : Int, 0 ≤ k → k < mx + 1 →
                k ∈ m.map.filterMap id := by
              intro k hk0 hk1
              have hkj : k.toNat < seen'.length := by
                rw [hslen, List.length_replicate]
                omega
              have hch := (hchar k.toNat).mp (hall k.toNat hkj)
              rcases hch with hrep | ⟨v, hv, hvt⟩
              · rw [getD_replicate_false] at hrep
                exact absurd hrep (by simp)
              · have hv0 : 0 ≤ v := hnneg v hv
                have hvk : v = k := by omega
                rwa [← hvk]
            refine ⟨by omega, by omega, hlen', by simpa using hmem, ?_,
              hnodup, ?_, ?_⟩
            · intro v hv
              have := hub v hv
              omega
            · intro k
              constructor
              · intro hk
                exact ⟨hnneg k hk, by have := hub k hk; omega⟩
              · rintro ⟨hk0, hk1⟩
                exact hcover k hk0 hk1
            · have hset : (m.map.filterMap id).toFinset =
                  Finset.Ico (0 : Int) (mx + 1) := by
                ext k
                rw [List.mem_toFinset, Finset.mem_Ico]
                constructor
                · intro hk
                  exact ⟨hnneg k hk, by have := hub k hk; omega⟩
                · rintro ⟨hk0, hk1⟩
                  exact hcover k hk0 hk1
              have hcard := List.toFinset_card_of_nodup hnodup
              rw [hset, Int.card_Ico] at hcard
              omega

/-- C1: for a matrix map with positive dimensions and matching length, a
    successful `leds_count_from_matrix_map` returns
    `ledsCount = 1 + max(non-null entries)`, which equals the number of
    non-null entries, and those entries are exactly `{0..ledsCount-1}` with
    no duplicate and no gap; a map with no non-null entry, a duplicate
    index, or a gap makes it fail with an error instead of returning. -/
theorem leds_count_spec (oid : String) (m : MatrixMapConfig) :
    (∀ n, leds_count_from_matrix_map oid m = .ok n →
      0 < m.width ∧ 0 < m.height ∧
      (m.map.length : Int) = m.width * m.height ∧
      (n - 1) ∈ m.map.filterMap id ∧
      (∀ v ∈ m.map.filterMap id, v ≤ n - 1) ∧
      (m.map.filterMap id).Nodup ∧
      (∀ k : Int, k ∈ m.map.filterMap id ↔ 0 ≤ k ∧ k < n) ∧
      ((m.map.filterMap id).length : Int) = n) ∧
    (0 < m.width → 0 < m.height →
      (m.map.length : Int) = m.width * m.height →
      (m.map.filterMap id = [] ∨ ¬ (m.map.filterMap id).Nodup ∨
        (∃ j k : Int, j ∈ m.map.filterMap id ∧ 0 ≤ k ∧ k < j ∧
          k ∉ m.map.filterMap id)) →
      ∃ e, leds_count_from_matrix_map oid m = .error e) := by
  constructor
  · intro n h
    exact leds_count_ok_char oid m n h
  · intro _ _ _ hbad
    rcases hres : leds_count_from_matrix_map oid m with e | n
    · exact ⟨e, rfl⟩
    · exfalso
      obtain ⟨_, _, _, hmem, _, hnodup, hiff, _⟩ :=
        leds_count_ok_char oid m n hres
      rcases hbad with hempty | hnd | ⟨j, k, hj, hk0, hkj, hknot⟩
      · rw [hempty] at hmem
        simp at hmem
      · exact hnd hnodup
      · have hjn : j < n := ((hiff j).mp hj).2
        exact hknot ((hiff k).mpr ⟨hk0, by omega⟩)

/-- Witness for C1: the spec's example `map = [0, null, 1, null]` succeeds
    with `ledsCount = 2`; the duplicate map `[0, 0, 1, null]` fails. -/
theorem leds_count_spec_witness :
    ((2 : Int) - 1) ∈
      ([some 0, none, some 1, none] : List (Option Int)).filterMap id ∧
    (∃ e, leds_count_from_matrix_map "o"
      ⟨2, 2, [some 0, some 0, some 1, none]⟩ = .error e) := by
  constructor
  · exact ((leds_count_spec "o" ⟨2, 2, [some 0, none, some 1, none]⟩).1
      2 rfl).2.2.2.1
  · exact (leds_count_spec "o" ⟨2, 2, [some 0, some 0, some 1, none]⟩).2
      (by decide) (by decide) (by decide) (Or.inr (Or.inl (by decide)))

/-- C9: the QUERY_INFO reply (whenever the serial is ASCII and the primary
    dimensions and pixel size fit in 16 bits, as they do for the fixed
    identity and validated configs) is the fixed little-endian header
    followed by the three length-prefixed UTF-8 fields; the primary
    dimensions are the first Matrix output's `(width, height)` if a Matrix
    output exists, else the first Linear output's `(min(width, 65535), 1)`,
    else `(1, 1)`. -/
theorem query_info_reply (rt : DeviceRuntime) (w h : Int) (snBytes : List Nat)
    (hsn : asciiEncode rt.serial = some snBytes)
    (hdims : primary_dimensions rt.outputs = (w, h))
    (hw : 0 ≤ w ∧ w < 65536) (hh : 0 ≤ h ∧ h < 65536)
    (hp : 0 ≤ rt.pixel_size ∧ rt.pixel_size < 65536) :
    send_device_info rt =
      some ([CMD_QUERY_INFO, PROTOCOL_VERSION] ++
        [w.toNat % 256, w.toNat / 256] ++ [h.toNat % 256, h.toNat / 256] ++
        [rt.pixel_size.toNat % 256, rt.pixel_size.toNat / 256] ++
        [min (utf8Encode rt.name).length 255] ++
        (utf8Encode rt.name).take (min (utf8Encode rt.name).length 255) ++
        [min (utf8Encode rt.description).length 255] ++
        (utf8Encode rt.description).take
          (min (utf8Encode rt.description).length 255) ++
        [min snBytes.length 255] ++ snBytes.take (min snBytes.length 255)) ∧
    ((∃ o ∈ rt.outputs, o.output_type = "Matrix") →
      ∃ l1 o l2, rt.outputs = l1 ++ o :: l2 ∧
        (∀ x ∈ l1, x.output_type ≠ "Matrix") ∧ o.output_type = "Matrix" ∧
        w = o.virtual_width ∧ h = o.virtual_height) ∧
    ((∀ o ∈ rt.outputs, o.output_type ≠ "Matrix") →
      (∃ o ∈ rt.outputs, o.output_type = "Linear") →
      ∃ l1 o l2, rt.outputs = l1 ++ o :: l2 ∧
        (∀ x ∈ l1, x.output_type ≠ "Linear") ∧ o.output_type = "Linear" ∧
        w = min o.virtual_width 65535 ∧ h = 1) ∧
    ((∀ o ∈ rt.outputs, o.output_type ≠ "Matrix") →
      (∀ o ∈ rt.outputs, o.output_type ≠ "Linear") →
      w = 1 ∧ h = 1) := by
  have hpw : packH w = some [w.toNat % 256, w.toNat / 256] := by
    simp only [packH, if_pos hw]
  have hph : packH h = some [h.toNat % 256, h.toNat / 256] := by
    simp only [packH, if_pos hh]
  have hpp : packH rt.pixel_size =
      some [rt.pixel_size.toNat % 256, rt.pixel_size.toNat / 256] := by
    simp only [packH, if_pos hp]
  refine ⟨?_, ?_, ?_, ?_⟩
  · simp only [send_device_info, hdims, hsn, hpw, hph, hpp]
  · rintro ⟨o, ho, hmo⟩
    rcases hfind : rt.outputs.find? (fun o => o.output_type == "Matrix")
      with _ | o'
    · exfalso
      have hc := List.find?_eq_none.mp hfind o ho
      simp [hmo] at hc
    · obtain ⟨hpo, l1, l2, hsplit, hprev⟩ := List.find?_eq_some.mp hfind
      have hd := hdims
      simp only [primary_dimensions, hfind] at hd
      obtain ⟨h1, h2⟩ := Prod.mk.inj hd
      exact ⟨l1, o', l2, hsplit, fun x hx => by simpa using hprev x hx,
        by simpa using hpo, h1.symm, h2.symm⟩
  · rintro hnoM ⟨o, ho, hlo⟩
    have hfindM : rt.outputs.find? (fun o => o.output_type == "Matrix") =
        none := by
      refine List.find?_eq_none.mpr (fun x hx => ?_)
      simpa using hnoM x hx
    rcases hfind : rt.outputs.find? (fun o => o.output_type == "Linear")
      with _ | o'
    · exfalso
      have hc := List.find?_eq_none.mp hfind o ho
      simp [hlo] at hc
    · obtain ⟨hpo, l1, l2, hsplit, hprev⟩ := List.find?_eq_some.mp hfind
      have hd := hdims
      simp only [primary_dimensions, hfindM, hfind] at hd
      obtain ⟨h1, h2⟩ := Prod.mk.inj hd
      exact ⟨l1, o', l2, hsplit, fun x hx => by simpa using hprev x hx,
        by simpa using hpo, h1.symm, h2.symm⟩
  · intro hnoM hnoL
    have hfindM : rt.outputs.find? (fun o => o.output_type == "Matrix") =
        none := by
      refine List.find?_eq_none.mpr (fun x hx => ?_)
      simpa using hnoM x hx
    have hfindL : rt.outputs.find? (fun o => o.output_type == "Linear") =
        none := by
      refine List.find?_eq_none.mpr (fun x hx => ?_)
      simpa using hnoL x hx
    have hd := hdims
    simp only [primary_dimensions, hfindM, hfindL] at hd
    obtain ⟨h1, h2⟩ := Prod.mk.inj hd
    exact ⟨h1.symm, h2.symm⟩

/-- Witness for C9: the concrete reply for the runtime built from `cfgEx`
    (primary dimensions come from the Linear output: `(3, 1)`). -/
theorem query_info_reply_witness :
    send_device_info rtEx =
      some ([CMD_QUERY_INFO, PROTOCOL_VERSION] ++ [3, 0] ++ [1, 0] ++ [6, 0] ++
        [13] ++ utf8Encode "TestDevice V4" ++
        [25] ++ utf8Encode "TestDevice by Python mDNS" ++
        [4] ++ [65, 66, 49, 50]) := by
  have happ := query_info_reply rtEx 3 1 [65, 66, 49, 50] rfl (by decide)
    (by decide) (by decide) (by decide)
  exact happ.1.trans (by decide)

/-- Witness for C2: frame 1 with two fragments, delivered as indices 0 then
    1, swaps exactly once; the prefix before the last call never swaps. -/
theorem frame_reassembly_single_swap_witness :
    (deliverFragments 0 1 2 [(0, []), (1, [])]
      ⟨[], [], true, none, ∅, 0, 0⟩).swapCount = 0 + 1 ∧
    (deliverFragments 0 1 2 ([(0, []), (1, [])].take 1)
      ⟨[], [], true, none, ∅, 0, 0⟩).swapCount = 0 := by
  have happ := frame_reassembly_single_swap 0 1 2 [(0, []), (1, [])]
    ⟨[], [], true, none, ∅, 0, 0⟩ (by decide) (by decide) (by decide)
    (by decide) (by decide)
  exact ⟨happ.1, happ.2 1 (by decide)⟩

/-- Helper: fields of the runtime built for one output: the offset is the
    one passed in, and the LED count is the config's count for Matrix and
    Linear outputs and 1 otherwise. -/
theorem build_output_runtime_fields (out : OutputConfig) (offset top : Int)
    (rt : OutputRuntime) (h : build_output_runtime out offset top = .ok rt) :
    rt.offset = offset ∧
    rt.leds_count =
      (if out.output_type = "Matrix" ∨ out.output_type = "Linear"
       then out.leds_count else 1) := by
  simp only [build_output_runtime] at h
  split at h
  · rename_i hm
    split at h
    · exact absurd h (by simp)
    · rename_i m hmx
      have hrt := (Except.ok.inj h).symm
      subst hrt
      exact ⟨rfl, by simp [hm]⟩
  · rename_i hm
    split at h
    · rename_i hl
      have hrt := (Except.ok.inj h).symm
      subst hrt
      exact ⟨rfl, by simp [hl]⟩
    · rename_i hl
      have hrt := (Except.ok.inj h).symm
      subst hrt
      exact ⟨rfl, by rw [if_neg (by tauto)]⟩

/-- Helper: the output-construction loop of `_build_outputs_runtime`
    produces one runtime per config output, returns the final offset
    `offset + Σ ledsCount`, and assigns each output the prefix-sum offset
    and its config LED count. -/
theorem buildOutputsLoop_spec (cfgs : List OutputConfig) :
    ∀ (offset top maxW : Int) (outs : List OutputRuntime) (o t w : Int),
      buildOutputsLoop cfgs offset top maxW = .ok (outs, o, t, w) →
      (∀ oc ∈ cfgs, oc.output_type = "Single" → oc.leds_count = 1) →
      (∀ oc ∈ cfgs, oc.output_type = "Single" ∨ oc.output_type = "Linear" ∨
        oc.output_type = "Matrix") →
      outs.length = cfgs.length ∧
      o = offset + (cfgs.map (fun c => c.leds_count)).sum ∧
      (∀ i (hi : i < outs.length) (hi' : i < cfgs.length),
        (outs.get ⟨i, hi⟩).offset =
          offset + ((cfgs.take i).map (fun c => c.leds_count)).sum ∧
        (outs.get ⟨i, hi⟩).leds_count = (cfgs.get ⟨i, hi'⟩).leds_count) := by
  induction cfgs with
  | nil =>
    intro offset top maxW outs o t w h _ _
    simp only [buildOutputsLoop] at h
    have hinj := Except.ok.inj h
    simp only [Prod.mk.injEq] at hinj
    obtain ⟨ho, h2, _, _⟩ := hinj
    subst ho h2
    refine ⟨rfl, by simp, ?_⟩
    intro i hi _
    simp at hi
  | cons c cfgs ih =>
    intro offset top maxW outs o t w h hsingle htypes
    simp only [buildOutputsLoop] at h
    split at h
    · exact absurd h (by simp)
    · rename_i rt hrt
      split at h
      · exact absurd h (by simp)
      · rename_i outs' o' t' w' hres
        have hinj := Except.ok.inj h
        simp only [Prod.mk.injEq] at hinj
        obtain ⟨ho, h2, h3, h4⟩ := hinj
        subst ho h2 h3 h4
        obtain ⟨hlen, hsum, hidx⟩ := ih (offset + c.leds_count) _ _ outs' o' t' w'
          hres (fun oc hm hs => hsingle oc (List.mem_cons_of_mem _ hm) hs)
          (fun oc hm => htypes oc (List.mem_cons_of_mem _ hm))
        obtain ⟨hrtoff, hrtcnt⟩ := build_output_runtime_fields c offset top rt hrt
        refine ⟨by simp [hlen], ?_, ?_⟩
        · simp only [List.map_cons, List.sum_cons]
          omega
        · intro i hi hi'
          rcases i with _ | j
          · refine ⟨by simpa using hrtoff, ?_⟩
            show rt.leds_count = c.leds_count
            rw [hrtcnt]
            rcases htypes c (List.mem_cons_self _ _) with h' | h' | h'
            · rw [if_neg (by simp [h']), hsingle c (List.mem_cons_self _ _) h']
            · rw [if_pos (Or.inr h')]
            · rw [if_pos (Or.inl h')]
          · have hj : j < outs'.length := by simpa using hi
            have hj' : j < cfgs.length := by simpa using hi'
            obtain ⟨hoffj, hcntj⟩ := hidx j hj hj'
            constructor
            · show (outs'.get ⟨j, hj⟩).offset = _
              rw [hoffj]
              simp only [show (c :: cfgs).take (j + 1) = c :: cfgs.take j from rfl,
                List.map_cons, List.sum_cons]
              omega
            · show (outs'.get ⟨j, hj⟩).leds_count = _
              rw [hcntj]
              rfl

/-- Helper: a position `j` in `[base, base + Σ counts)` falls in exactly one
    of the consecutive blocks of sizes `counts` (all positive) laid out from
    `base`. -/
theorem prefix_sum_partition :
    ∀ (counts : List Int), (∀ c ∈ counts, 0 < c) →
      ∀ (base j : Int), base ≤ j → j < base + counts.sum →
      ∃! i : Nat, i < counts.length ∧
        base + (counts.take i).sum ≤ j ∧
        j < base + (counts.take i).sum + counts.getD i 0 := by
  intro counts
  induction counts with
  | nil =>
    intro _ base j h0 h1
    exfalso
    simp only [List.sum_nil] at h1
    omega
  | cons c rest ih =>
    intro hpos base j h0 h1
    by_cases hc : j < base + c
    · refine ⟨0, ⟨by simp, by simpa using h0, ?_⟩, ?_⟩
      · simpa [List.getD] using hc
      · rintro i2 ⟨hi2, hl2, hr2⟩
        rcases i2 with _ | i2'
        · rfl
        · exfalso
          have ht : ((c :: rest).take (i2' + 1)).sum = c + (rest.take i2').sum := by
            rw [show (c :: rest).take (i2' + 1) = c :: rest.take i2' from rfl,
              List.sum_cons]
          have hnn : 0 ≤ (rest.take i2').sum :=
            List.sum_nonneg (fun x hx =>
              le_of_lt (hpos x (List.mem_cons_of_mem _ (List.mem_of_mem_take hx))))
          omega
    · have hcpos : 0 < c := hpos c (List.mem_cons_self _ _)
      have hj0 : base + c ≤ j := by omega
      have hj1 : j < base + c + rest.sum := by
        have hs : (c :: rest).sum = c + rest.sum := by simp
        omega
      obtain ⟨i, ⟨hi, hl, hr⟩, huniq⟩ :=
        ih (fun x hx => hpos x (List.mem_cons_of_mem _ hx)) (base + c) j hj0 hj1
      have ht : ∀ m : Nat, ((c :: rest).take (m + 1)).sum = c + (rest.take m).sum := by
        intro m
        rw [show (c :: rest).take (m + 1) = c :: rest.take m from rfl, List.sum_cons]
      have hg : ∀ m : Nat, (c :: rest).getD (m + 1) 0 = rest.getD m 0 := fun m => rfl
      refine ⟨i + 1, ⟨by simpa using Nat.succ_lt_succ hi, ?_, ?_⟩, ?_⟩
      · have := ht i
        omega
      · have h5 := ht i
        have h6 := hg i
        omega
      · rintro i2 ⟨hi2, hl2, hr2⟩
        rcases i2 with _ | i2'
        · exfalso
          simp only [List.take_zero, List.sum_nil, List.getD] at hl2 hr2
          simp at hr2
          omega
        · have hi2' : i2' < rest.length := by simpa using hi2
          have h5 := ht i2'
          have h6 := hg i2'
          have h7 := huniq i2' ⟨hi2', by omega, by omega⟩
          omega

/-- C4: for a well-formed configuration (every output one of the three
    types, Single outputs with `leds_count = 1`, all counts positive) the
    runtime assigns offsets in config order with `offset[0] = 0` and
    `offset[i+1] = offset[i] + ledsCount[i]`, `totalLeds` is the sum of the
    outputs' LED counts, and the per-output ranges
    `[offset[i], offset[i] + ledsCount[i])` partition `[0, totalLeds)`. -/
theorem offsets_partition (config : DeviceConfig) (outs : List OutputRuntime)
    (cw ch total : Int)
    (h : build_outputs_runtime config = .ok (outs, cw, ch, total))
    (hsingle : ∀ oc ∈ config.outputs,
      oc.output_type = "Single" → oc.leds_count = 1)
    (htypes : ∀ oc ∈ config.outputs, oc.output_type = "Single" ∨
      oc.output_type = "Linear" ∨ oc.output_type = "Matrix")
    (hpos : ∀ oc ∈ config.outputs, 0 < oc.leds_count) :
    (∀ h0 : 0 < outs.length, (outs.get ⟨0, h0⟩).offset = 0) ∧
    (∀ i (hi : i + 1 < outs.length),
      (outs.get ⟨i + 1, hi⟩).offset =
        (outs.get ⟨i, by omega⟩).offset + (outs.get ⟨i, by omega⟩).leds_count) ∧
    total = (outs.map (fun o => o.leds_count)).sum ∧
    (∀ j : Int, 0 ≤ j → j < total →
      ∃! i : Nat, ∃ hi : i < outs.length,
        (outs.get ⟨i, hi⟩).offset ≤ j ∧
        j < (outs.get ⟨i, hi⟩).offset + (outs.get ⟨i, hi⟩).leds_count) := by
  simp only [build_outputs_runtime] at h
  split at h
  · exact absurd h (by simp)
  · rename_i outs0 o0 t0 w0 hloop
    split at h
    · exact absurd h (by simp)
    · rename_i hne0
      have hinj := Except.ok.inj h
      simp only [Prod.mk.injEq] at hinj
      obtain ⟨ho, hcw, hch, htot⟩ := hinj
      subst ho hcw hch htot
      obtain ⟨hlen, hsum, hidx⟩ := buildOutputsLoop_spec config.outputs 0 0 1
        outs0 o0 t0 w0 hloop hsingle htypes
      -- fields of the left-centred outputs
      have hfield : ∀ i (hi : i < outs0.length) (hi' : i < config.outputs.length),
          ((outs0.map (fun o : OutputRuntime =>
            { o with left := max 0 ((w0 - o.virtual_width).fdiv 2) })).get
              ⟨i, by simpa using hi⟩).offset = (outs0.get ⟨i, hi⟩).offset ∧
          ((outs0.map (fun o : OutputRuntime =>
            { o with left := max 0 ((w0 - o.virtual_width).fdiv 2) })).get
              ⟨i, by simpa using hi⟩).leds_count =
            (outs0.get ⟨i, hi⟩).leds_count := by
        intro i hi hi'
        constructor <;>
          simp only [List.get_eq_getElem, List.getElem_map]
      have hlen' : (outs0.map (fun o : OutputRuntime =>
          { o with left := max 0 ((w0 - o.virtual_width).fdiv 2) })).length =
          config.outputs.length := by simpa using hlen
      refine ⟨?_, ?_, ?_, ?_⟩
      · intro h0
        have h0' : 0 < outs0.length := by simpa using h0
        have h0'' : 0 < config.outputs.length := by omega
        rw [(hfield 0 h0' h0'').1, (hidx 0 h0' h0'').1]
        simp
      · intro i hi
        have hi1 : i + 1 < outs0.length := by simpa using hi
        have hi0 : i < outs0.length := by omega
        have hi1' : i + 1 < config.outputs.length := by omega
        have hi0' : i < config.outputs.length := by omega
        rw [(hfield (i + 1) hi1 hi1').1, (hfield i hi0 hi0').1,
          (hfield i hi0 hi0').2, (hidx (i + 1) hi1 hi1').1,
          (hidx i hi0 hi0').1, (hidx i hi0 hi0').2]
        rw [List.take_succ, List.getElem?_eq_getElem hi0']
        simp only [Option.toList_some, List.map_append, List.sum_append,
          List.map_cons, List.map_nil, List.sum_cons, List.sum_nil]
        have : config.outputs[i] = config.outputs.get ⟨i, hi0'⟩ := rfl
        rw [this]
        ring
      · -- totalLeds = sum of runtime counts
        have hmapeq : (outs0.map (fun o : OutputRuntime =>
            { o with left := max 0 ((w0 - o.virtual_width).fdiv 2) })).map
              (fun o => o.leds_count) =
            config.outputs.map (fun c => c.leds_count) := by
          refine List.ext_get (by simpa using hlen) ?_
          intro n h1 h2
          have hn : n < outs0.length := by simpa using h1
          have hn' : n < config.outputs.length := by simpa using h2
          simp only [List.get_eq_getElem, List.getElem_map]
          have hfe := (hfield n hn hn').2
          simp only [List.get_eq_getElem, List.getElem_map] at hfe
          have hie := (hidx n hn hn').2
          simp only [List.get_eq_getElem] at hie
          exact hie
        rw [hmapeq, hsum]
        simp
      · intro j hj0 hj1
        have hjsum : j < 0 + (config.outputs.map (fun c => c.leds_count)).sum := by
          omega
        obtain ⟨i, ⟨hi, hl, hr⟩, huniq⟩ := prefix_sum_partition
          (config.outputs.map (fun c => c.leds_count))
          (by
            intro x hx
            obtain ⟨oc, hoc, rfl⟩ := List.mem_map.mp hx
            exact hpos oc hoc)
          0 j hj0 hjsum
        -- translate block data to runtime outputs
        have hcl : (config.outputs.map (fun c => c.leds_count)).length =
            config.outputs.length := by simp
        have hconv : ∀ (m : Nat) (hm : m < (outs0.map (fun o : OutputRuntime =>
              { o with left := max 0 ((w0 - o.virtual_width).fdiv 2) })).length),
            ((outs0.map (fun o : OutputRuntime =>
              { o with left := max 0 ((w0 - o.virtual_width).fdiv 2) })).get
                ⟨m, hm⟩).offset =
              ((config.outputs.map (fun c => c.leds_count)).take m).sum ∧
            ((outs0.map (fun o : OutputRuntime =>
              { o with left := max 0 ((w0 - o.virtual_width).fdiv 2) })).get
                ⟨m, hm⟩).leds_count =
              (config.outputs.map (fun c => c.leds_count)).getD m 0 := by
          intro m hm
          have hmc : m < config.outputs.length := by omega
          have hm0 : m < outs0.length := by omega
          have hoe : ((outs0.map (fun o : OutputRuntime =>
              { o with left := max 0 ((w0 - o.virtual_width).fdiv 2) })).get
                ⟨m, hm⟩).offset = (outs0.get ⟨m, hm0⟩).offset := by
            simp only [List.get_eq_getElem, List.getElem_map]
          have hce : ((outs0.map (fun o : OutputRuntime =>
              { o with left := max 0 ((w0 - o.virtual_width).fdiv 2) })).get
                ⟨m, hm⟩).leds_count = (outs0.get ⟨m, hm0⟩).leds_count := by
            simp only [List.get_eq_getElem, List.getElem_map]
          constructor
          · rw [hoe, (hidx m hm0 hmc).1, ← List.map_take]
            simp
          · rw [hce, (hidx m hm0 hmc).2]
            simp only [List.getD_eq_getElem?_getD, List.getElem?_map,
              List.getElem?_eq_getElem hmc]
            rfl
        have hbound : i < (outs0.map (fun o : OutputRuntime =>
            { o with left := max 0 ((w0 - o.virtual_width).fdiv 2) })).length := by
          omega
        refine ⟨i, ⟨hbound, ?_, ?_⟩, ?_⟩
        · rw [(hconv i hbound).1]
          omega
        · rw [(hconv i hbound).1, (hconv i hbound).2]
          omega
        · rintro i2 ⟨hi2, hl2, hr2⟩
          apply huniq
          rw [(hconv i2 hi2).1] at hl2 hr2
          rw [(hconv i2 hi2).2] at hr2
          exact ⟨by omega, by omega, by omega⟩

/-- Witness for C4 (the example from the claim): a Single output `a`
    followed by a Linear output `b` of length 3 gives `totalLeds = 4`,
    `offset(a) = 0`, `offset(b) = 1`. -/
theorem offsets_partition_witness :
    (4 : Int) = (outsEx.map (fun o => o.leds_count)).sum ∧
    (outsEx.get ⟨0, by decide⟩).offset = 0 ∧
    (outsEx.get ⟨1, by decide⟩).offset = 1 := by
  have happ := offsets_partition cfgEx outsEx 3 4 4 rfl
    (by decide) (by decide) (by decide)
  exact ⟨happ.2.2.1, happ.1 (by decide),
    (happ.2.1 0 (by decide)).trans (by decide)⟩

/-- Witness for C6: a 3-byte payload goes out as one fragment whose chunk
    bytes reproduce the payload. -/
theorem config_fragmentation_witness :
    ([[20, 0, 1, 0, 3, 0, 1, 2, 3]].map (fun p => p.drop 6)).flatten =
      [1, 2, 3] ∧
    ([[20, 0, 1, 0, 3, 0, 1, 2, 3]] : List (List Nat)).length = 1 := by
  have happ := config_fragmentation 0 [1, 2, 3] [[20, 0, 1, 0, 3, 0, 1, 2, 3]]
    (by decide) (by decide)
  exact ⟨happ.2.2, happ.1⟩

end Light
